import Mathlib

/-!
Verification of the admin dashboard analytics engine of the `kiosks`
marketplace backend (`app/routers/admin.py`, with the scope resolution of
`app/dependencies.py` and the vendor order listing of
`app/routers/orders.py`).

The engine is shallowly embedded: Python dicts become insertion-ordered
association lists, Python sets become duplicate-free insertion-ordered
lists, floating-point currency arithmetic becomes exact rational
arithmetic, and the `datetime.fromisoformat` parse of a `created_at`
string is abstracted into a three-valued field (absent/falsy, present but
unparseable, parsed to a POSIX timestamp plus a `YYYY-MM-DD` day string).
A computation that raises in Python is modelled as `Option.none`.
-/

namespace Kiosks

/-- The `created_at` column of an order or product row, as seen by the
engine: `missing` when the value is absent or falsy (the code matches this
with `if not created_at_str`), `bad` when a truthy string is rejected by
`datetime.fromisoformat` (which raises), and `ok ts dateStr` when parsing
succeeds, carrying `dt.timestamp()` in seconds and `dt.strftime("%Y-%m-%d")`. -/
inductive TsField where
  | missing : TsField
  | bad : TsField
  | ok (ts : Int) (dateStr : String) : TsField
deriving DecidableEq

/-- A line item of an order, with the fields the engine reads:
`item.get("product_id")`, `item.get("quantity", 0)`, `item.get("price", 0)`. -/
structure OrderItem where
  product_id : Option String
  quantity : Int
  price : Rat
deriving DecidableEq

/-- An order row, with the fields the engine reads plus the
client-declared `total` and the `status` that ride along in the
`dict(order)` copy placed into `recent_orders`. -/
structure Order where
  id : String
  user_id : Option String
  status : String
  total : Rat
  items : List OrderItem
  created_at : TsField
deriving DecidableEq

/-- A product row: `id`, `name`, nullable `vendor_id`, `created_at`. -/
structure Product where
  id : String
  name : String
  vendor_id : Option String
  created_at : TsField
deriving DecidableEq

/-- A vendor row: `id`, `name`. -/
structure Vendor where
  id : String
  name : String
deriving DecidableEq

/-! ### Python dict / set semantics -/

/-- Lookup in an insertion-ordered association list (Python dict access
with a default). -/
def alistGet {β : Type} (m : List (String × β)) (k : String) (d : β) : β :=
  match m with
  | [] => d
  | kv :: m => if kv.1 == k then kv.2 else alistGet m k d

/-- Store into an insertion-ordered association list: overwrite in place
when the key exists (the built maps hold each key at most once), append at
the end otherwise — Python dict assignment. -/
def alistSet {β : Type} (m : List (String × β)) (k : String) (v : β) : List (String × β) :=
  match m with
  | [] => [(k, v)]
  | kv :: m => if kv.1 == k then (k, v) :: m else kv :: alistSet m k v

/-- `m[k] = f(m[k])` on a `defaultdict` with default `d`. -/
def alistUpd {β : Type} (m : List (String × β)) (k : String) (d : β) (f : β → β) :
    List (String × β) :=
  alistSet m k (f (alistGet m k d))

/-- `set.add`: insertion-ordered, duplicate-free. -/
def setAdd (s : List String) (x : String) : List String :=
  if s.contains x then s else s ++ [x]

/-! ### Snapshot lookups -/

/-- `product_meta = {p["id"]: {...} for p in products_data}` — a dict
comprehension keyed by product id, later rows overwriting earlier ones. -/
def productMeta (products : List Product) (pid : String) : Option Product :=
  products.reverse.find? (fun p => p.id == pid)

/-- `product_meta.get(p_id, {}).get("vendor_id")`: the vendor id a line
item resolves to through the product snapshot (None when the product id is
absent, unresolvable, or the product's vendor id is null). -/
def resolvedVendor (products : List Product) (item : OrderItem) : Option String :=
  match item.product_id with
  | none => none
  | some pid =>
    match productMeta products pid with
    | none => none
    | some meta => meta.vendor_id

/-- `vendor_names.get(v_id, "Unknown Vendor")` where
`vendor_names = {v["id"]: v["name"] for v in vendors_data}`. -/
def vendorName (vendors : List Vendor) (vid : String) : String :=
  match vendors.reverse.find? (fun v => v.id == vid) with
  | some v => v.name
  | none => "Unknown Vendor"

/-! ### Scope resolution (`app/dependencies.py`) -/

/-- `get_vendor_for_user`: admins and super admins get no vendor filter;
a `vendor_admin` gets their assignment from the `vendor_admins` relation
(possibly absent); any other role gets none. -/
def get_vendor_for_user (role : String) (assignment : Option String) : Option String :=
  if role == "admin" || role == "super_admin" then none
  else if role != "vendor_admin" then none
  else assignment

/-! ### Aggregation state -/

/-- Value of `vendor_stats_map`: `{"revenue": 0.0, "sales": 0}`. -/
structure VSt where
  revenue : Rat
  sales : Int
deriving DecidableEq

/-- Value of `product_stats_map`: `{"revenue": 0.0, "sales": 0, "name": ""}`. -/
structure PSt where
  revenue : Rat
  sales : Int
  name : String
deriving DecidableEq

/-- Value of `daily_stats_map`: `{"revenue": 0.0, "orders": 0}`. -/
structure DSt where
  revenue : Rat
  orders : Nat
deriving DecidableEq

/-- The mutable locals of `get_admin_summary`'s scan over orders. -/
structure ScanState where
  total_revenue : Rat
  total_orders : Nat
  customers : List String
  curRev : Rat
  prevRev : Rat
  curOrders : Nat
  prevOrders : Nat
  curCusts : List String
  prevCusts : List String
  vendorStats : List (String × VSt)
  productStats : List (String × PSt)
  dailyStats : List (String × DSt)
  recentOrders : List Order
deriving DecidableEq

/-- The initial values of the scan locals. -/
def ScanState.init : ScanState :=
  ⟨0, 0, [], 0, 0, 0, 0, [], [], [], [], [], []⟩

/-! ### The per-item body of the scan (`admin.py` lines 73–103) -/

/-- One iteration of `for item in items` inside the order scan. The
accumulator carries the scan state together with the order-local
`order_vendor_items` and `order_vendor_subtotal`. `inCur`/`inPrev` are
`order_ts >= current_start` / `order_ts >= previous_start`. -/
def itemStep (isSuper : Bool) (vendorId : Option String) (products : List Product)
    (dateStr : String) (inCur inPrev : Bool)
    (acc : ScanState × List OrderItem × Rat) (item : OrderItem) :
    ScanState × List OrderItem × Rat :=
  let st := acc.1
  let vitems := acc.2.1
  let subtotal := acc.2.2
  match item.product_id with
  | none => acc
  | some pid =>
    match productMeta products pid with
    | none => acc
    | some meta =>
      match meta.vendor_id with
      | none => acc
      | some v =>
        if v.isEmpty then acc
        else
          let qty := item.quantity
          let itemTotal : Rat := (qty : Rat) * item.price
          let vs := alistUpd st.vendorStats v ⟨0, 0⟩
            (fun s => ⟨s.revenue + itemTotal, s.sales + qty⟩)
          let st1 := { st with vendorStats := vs }
          if isSuper || vendorId == some v then
            let ps := alistUpd st1.productStats pid ⟨0, 0, ""⟩
              (fun s => ⟨s.revenue + itemTotal, s.sales + qty, meta.name⟩)
            let ds := alistUpd st1.dailyStats dateStr ⟨0, 0⟩
              (fun s => ⟨s.revenue + itemTotal, s.orders⟩)
            let st2 := { st1 with
              total_revenue := st1.total_revenue + itemTotal,
              productStats := ps,
              dailyStats := ds,
              curRev := if inCur then st1.curRev + itemTotal else st1.curRev,
              prevRev := if !inCur && inPrev then st1.prevRev + itemTotal else st1.prevRev }
            (st2, vitems ++ [item], subtotal + itemTotal)
          else
            (st1, vitems, subtotal)

/-! ### The per-order body of the scan (`admin.py` lines 60–130) -/

/-- One iteration of `for order in all_orders`. A falsy `created_at` skips
the order entirely (`if not created_at_str: continue`); an unparseable one
raises (`none`); otherwise the items are scanned and, when at least one
in-scope item was found, the order-level counters are updated and the
order (redacted for non-super-admins) may join `recent_orders`. -/
def processOrder (isSuper : Bool) (vendorId : Option String) (products : List Product)
    (currentStart previousStart : Int) (st : ScanState) (o : Order) : Option ScanState :=
  match o.created_at with
  | .missing => some st
  | .bad => none
  | .ok ts dateStr =>
    let inCur : Bool := ts ≥ currentStart
    let inPrev : Bool := ts ≥ previousStart
    let r := o.items.foldl (itemStep isSuper vendorId products dateStr inCur inPrev)
      (st, [], 0)
    let st1 := r.1
    let vitems := r.2.1
    let subtotal := r.2.2
    if vitems.isEmpty then some st1
    else
      let ds := alistUpd st1.dailyStats dateStr ⟨0, 0⟩
        (fun s => ⟨s.revenue, s.orders + 1⟩)
      let st2 := { st1 with
        total_orders := st1.total_orders + 1,
        dailyStats := ds }
      let st3 :=
        match o.user_id with
        | some u =>
          if u.isEmpty then st2
          else
            { st2 with
              customers := setAdd st2.customers u,
              curCusts := if inCur then setAdd st2.curCusts u else st2.curCusts,
              prevCusts := if !inCur && inPrev then setAdd st2.prevCusts u else st2.prevCusts }
        | none => st2
      let st4 := { st3 with
        curOrders := if inCur then st3.curOrders + 1 else st3.curOrders,
        prevOrders := if !inCur && inPrev then st3.prevOrders + 1 else st3.prevOrders }
      let st5 :=
        if st4.recentOrders.length < 5 then
          let oc := if isSuper then o else { o with items := vitems, total := subtotal }
          { st4 with recentOrders := st4.recentOrders ++ [oc] }
        else st4
      some st5

/-! ### Growth helpers (`admin.py` lines 133–156) -/

/-- `calc_pct(cur, prev)` of `get_admin_summary`. -/
def calc_pct (cur prev : Rat) : Rat :=
  if prev = 0 then (if cur > 0 then 100 else 0)
  else ((cur - prev) / prev) * 100

/-- The product-creation growth loop (`admin.py` lines 142–154): counts
in-scope products created in the current / previous 30-day window; raises
(`none`) on an in-scope product with a truthy unparseable `created_at`. -/
def productsGrowth (isSuper : Bool) (vendorId : Option String)
    (currentStart previousStart : Int) (products : List Product) : Option (Nat × Nat) :=
  products.foldlM
    (fun (acc : Nat × Nat) p =>
      if !(isSuper || p.vendor_id == vendorId) then some acc
      else
        match p.created_at with
        | .missing => some acc
        | .bad => none
        | .ok ts _ =>
          if ts ≥ currentStart then some (acc.1 + 1, acc.2)
          else if ts ≥ previousStart then some (acc.1, acc.2 + 1)
          else some acc)
    (0, 0)

/-! ### Output shape (`app/schemas/admin.py`) -/

/-- `VendorStat` of the response model. -/
structure VendorStat where
  vendor_id : String
  vendor_name : String
  total_revenue : Rat
  total_sales : Int
deriving DecidableEq

/-- `TopProduct` of the response model. -/
structure TopProduct where
  name : String
  sales : Int
  revenue : Rat
deriving DecidableEq

/-- `DailyStat` of the response model. -/
structure DailyStat where
  date : String
  revenue : Rat
  orders : Nat
deriving DecidableEq

/-- `AdminSummary` of the response model; `recent_orders` keeps the full
order rows (`OrderOut` includes `status` and `total`). -/
structure AdminSummary where
  total_revenue : Rat
  total_orders : Nat
  total_customers : Nat
  total_products : Nat
  revenue_change : Rat
  orders_change : Rat
  customers_change : Rat
  products_change : Rat
  recent_orders : List Order
  vendor_stats : List VendorStat
  top_products : List TopProduct
  daily_stats : List DailyStat
deriving DecidableEq

/-! ### The endpoint (`admin.py` `get_admin_summary`) -/

/-- Lines 158–208 of `get_admin_summary`: assemble the response from the
scan state and the product-growth counters. -/
def assembleSummary (isSuper : Bool) (vendorId : Option String) (products : List Product)
    (vendors : List Vendor) (st : ScanState) (pg : Nat × Nat) : AdminSummary :=
  let vendorStats :=
    if isSuper then
      List.insertionSort (fun a b : VendorStat => b.total_revenue ≤ a.total_revenue)
        (st.vendorStats.map (fun kv =>
          ⟨kv.1, vendorName vendors kv.1, kv.2.revenue, kv.2.sales⟩))
    else []
  let sortedProds :=
    List.insertionSort (fun a b : PSt => b.revenue ≤ a.revenue)
      (st.productStats.map (fun kv => kv.2))
  let topProducts := (sortedProds.take 5).map (fun p => TopProduct.mk p.name p.sales p.revenue)
  let sortedDates := List.insertionSort (fun a b : String => a ≤ b)
    (st.dailyStats.map (fun kv => kv.1))
  let dailyStats := sortedDates.map (fun d =>
    DailyStat.mk d (alistGet st.dailyStats d ⟨0, 0⟩).revenue
      (alistGet st.dailyStats d ⟨0, 0⟩).orders)
  { total_revenue := st.total_revenue
    total_orders := st.total_orders
    total_customers := st.customers.length
    total_products :=
      (products.filter (fun p => isSuper || p.vendor_id == vendorId)).length
    revenue_change := calc_pct st.curRev st.prevRev
    orders_change := calc_pct (st.curOrders : Rat) (st.prevOrders : Rat)
    customers_change := calc_pct (st.curCusts.length : Rat) (st.prevCusts.length : Rat)
    products_change := calc_pct (pg.1 : Rat) (pg.2 : Rat)
    recent_orders := st.recentOrders
    vendor_stats := vendorStats
    top_products := topProducts
    daily_stats := dailyStats }

/-- `GET /admin/summary`. `role` is the authenticated user's role and
`vendorId` the result of `get_vendor_for_user`; `now` is
`datetime.utcnow().timestamp()` in whole seconds. `none` models an
unhandled exception (an unparseable timestamp on a scanned row). -/
def get_admin_summary (role : String) (vendorId : Option String)
    (products : List Product) (vendors : List Vendor) (orders : List Order)
    (now : Int) : Option AdminSummary :=
  let isSuper := role == "admin" || role == "super_admin"
  let currentStart := now - 30 * 24 * 60 * 60
  let previousStart := now - 60 * 24 * 60 * 60
  match orders.foldlM (processOrder isSuper vendorId products currentStart previousStart)
      ScanState.init with
  | none => none
  | some st =>
    match productsGrowth isSuper vendorId currentStart previousStart products with
    | none => none
    | some pg => some (assembleSummary isSuper vendorId products vendors st pg)

/-! ### The vendor branch of `GET /orders/admin/all` (`orders.py` lines 163–186) -/

/-- `sum(item["price"] * item["quantity"] for item in vendor_items)`. -/
def itemsSubtotal (items : List OrderItem) : Rat :=
  (items.map (fun it => it.price * (it.quantity : Rat))).sum

/-- The vendor-admin branch of `list_all_orders`: keep only orders holding
at least one item whose product id belongs to the vendor's product id set,
strip the other items from a copied row and recompute its total. -/
def list_all_orders_vendor (v : String) (products : List Product) (orders : List Order) :
    List Order :=
  let vendProdIds := (products.filter (fun p => p.vendor_id == some v)).map (fun p => p.id)
  orders.foldl
    (fun acc o =>
      let vendorItems := o.items.filter (fun item =>
        match item.product_id with
        | some pid => vendProdIds.contains pid
        | none => false)
      if vendorItems.isEmpty then acc
      else acc ++ [{ o with items := vendorItems, total := itemsSubtotal vendorItems }])
    []

/-! ### Derived per-item / per-order notions

These package the scan's skip conditions into predicates and closed-form
sums, so that theorems can state what the stateful scan computes. -/

/-- The per-item guard of the scan, packaged as a predicate: the item's
product id resolves, the resolved vendor id is truthy, and the item passes
the `is_super_admin or v_id == vendor_id` filter. -/
def itemQualifies (isSuper : Bool) (vendorId : Option String) (products : List Product)
    (item : OrderItem) : Bool :=
  match resolvedVendor products item with
  | none => false
  | some v => !v.isEmpty && (isSuper || vendorId == some v)

/-- `float(qty * price)` of one item. -/
def itemRev (item : OrderItem) : Rat :=
  (item.quantity : Rat) * item.price

/-- The in-scope subset of an order's items (`order_vendor_items`). -/
def scopedItems (isSuper : Bool) (vendorId : Option String) (products : List Product)
    (items : List OrderItem) : List OrderItem :=
  items.filter (itemQualifies isSuper vendorId products)

/-- Sum of `quantity × price` over a list of items. -/
def itemsRevenue (items : List OrderItem) : Rat :=
  (items.map itemRev).sum

/-- An order whose `created_at` is present and parseable. -/
def orderOkTs (o : Order) : Bool :=
  match o.created_at with
  | .ok _ _ => true
  | _ => false

/-- An order that counts in the scoped statistics: parseable timestamp and
at least one in-scope item. -/
def orderQualifiesB (isSuper : Bool) (vendorId : Option String) (products : List Product)
    (o : Order) : Bool :=
  orderOkTs o && !(scopedItems isSuper vendorId products o.items).isEmpty

/-- The in-scope revenue an order contributes to the lifetime total. -/
def orderScopedRev (isSuper : Bool) (vendorId : Option String) (products : List Product)
    (o : Order) : Rat :=
  if orderOkTs o then itemsRevenue (scopedItems isSuper vendorId products o.items) else 0

/-- The `dict(order)` copy placed into `recent_orders`: unchanged for a
super admin, otherwise with `items` replaced by the in-scope subset and
`total` by the recomputed subtotal. -/
def redactOrder (isSuper : Bool) (vendorId : Option String) (products : List Product)
    (o : Order) : Order :=
  if isSuper then o
  else { o with
    items := scopedItems isSuper vendorId products o.items,
    total := itemsRevenue (scopedItems isSuper vendorId products o.items) }

/-- The update a single order applies to the running customer set. -/
def custAdd (isSuper : Bool) (vendorId : Option String) (products : List Product)
    (s : List String) (o : Order) : List String :=
  if orderQualifiesB isSuper vendorId products o then
    match o.user_id with
    | some u => if u.isEmpty then s else setAdd s u
    | none => s
  else s

/-- The day key of an order with a parsed timestamp. -/
def orderDate (o : Order) : String :=
  match o.created_at with
  | .ok _ ds => ds
  | _ => ""

/-- Follows the spec's words (§4.2, §8): an item is in scope when its
product id resolves in the product snapshot and either the scope is global
or the resolved vendor id equals the scope's vendor id. Written for
comparison with the scan's own guard `itemQualifies`. -/
def specItemInScope (isSuper : Bool) (vendorId : Option String) (products : List Product)
    (item : OrderItem) : Bool :=
  match item.product_id with
  | none => false
  | some pid =>
    match productMeta products pid with
    | none => false
    | some meta => isSuper || meta.vendor_id == vendorId

/-- Follows the spec's words (§8): `Σ over qualifying items
(quantity × price)` ranging over every order of the snapshot. Written for
comparison with the engine's `total_revenue`. -/
def specTotalRevenue (isSuper : Bool) (vendorId : Option String) (products : List Product)
    (orders : List Order) : Rat :=
  (orders.map (fun o =>
    itemsRevenue (o.items.filter (specItemInScope isSuper vendorId products)))).sum

/-- The item filter of the vendor branch of `list_all_orders`: keep the
item iff its product id is among the vendor's product ids. -/
def vendorItemKeep (v : String) (products : List Product) (item : OrderItem) : Bool :=
  match item.product_id with
  | some pid =>
    ((products.filter (fun p => p.vendor_id == some v)).map (fun p => p.id)).contains pid
  | none => false

/-- Erase an order's `status` field (used to compare runs that differ only
in statuses). -/
def scrubOrder (o : Order) : Order :=
  { o with status := "" }

/-- Erase the `status` fields of the surfaced `recent_orders`. -/
def scrubSummary (s : AdminSummary) : AdminSummary :=
  { s with recent_orders := s.recent_orders.map scrubOrder }

/-- Erase the `status` fields inside the scan state's `recent_orders`. -/
def scrubState (st : ScanState) : ScanState :=
  { st with recentOrders := st.recentOrders.map scrubOrder }

/-! ### Concrete snapshot fixtures (used by witnesses and counterexamples) -/

/-- A fixed "now": 2001-09-09 01:46:40 UTC. -/
def wNow : Int := 1000000000

/-- A product of vendor V1, created one day before `wNow`. -/
def wP1 : Product := ⟨"A", "Prod A", some "V1", .ok (wNow - 86400) "2001-09-08"⟩

/-- A product of vendor V2, created one day before `wNow`. -/
def wP2 : Product := ⟨"B", "Prod B", some "V2", .ok (wNow - 86400) "2001-09-08"⟩

/-- An orphaned product: its vendor id is null. -/
def wPOrphan : Product := ⟨"N", "Orphan", none, .ok (wNow - 86400) "2001-09-08"⟩

/-- An order with a missing timestamp holding one qualifying item (product
A, quantity 1, price 10) and a client-declared total of 999. -/
def wOrderMissingTs : Order := ⟨"om", some "u1", "pending", 999, [⟨some "A", 1, 10⟩], .missing⟩

/-- The same order with a present but unparseable timestamp. -/
def wOrderBadTs : Order := ⟨"ob", some "u1", "pending", 999, [⟨some "A", 1, 10⟩], .bad⟩

/-- A well-timestamped order for product A (quantity 2, price 10). -/
def wOrder1 : Order :=
  ⟨"o1", some "u1", "pending", 999, [⟨some "A", 2, 10⟩], .ok (wNow - 86400) "2001-09-08"⟩

/-- A well-timestamped order for product B (quantity 1, price 50). -/
def wOrder2 : Order :=
  ⟨"o2", some "u2", "pending", 999, [⟨some "B", 1, 50⟩], .ok (wNow - 86400) "2001-09-08"⟩

/-- A well-timestamped order holding only the orphaned product N. -/
def wOrderOrphan : Order :=
  ⟨"on", some "u1", "pending", 999, [⟨some "N", 1, 10⟩], .ok (wNow - 86400) "2001-09-08"⟩

/-- A fallback summary value for extracting results from `Option`. -/
def wEmptySummary : AdminSummary := ⟨0, 0, 0, 0, 0, 0, 0, 0, [], [], [], []⟩

/-- A placeholder order for extracting list heads. -/
def wDummyOrder : Order := ⟨"", none, "", 0, [], .missing⟩

/-- The computed summary of the one-order global snapshot. -/
def wSummary1 : AdminSummary :=
  (get_admin_summary "admin" none [wP1] [] [wOrder1] wNow).getD wEmptySummary

/-- The computed summary of the two-vendor global snapshot. -/
def wSummary2 : AdminSummary :=
  (get_admin_summary "admin" none [wP1, wP2] [] [wOrder1, wOrder2] wNow).getD wEmptySummary

/-- The computed summary of an unassigned vendor admin over a snapshot
holding only an orphaned product. -/
def wSummary3 : AdminSummary :=
  (get_admin_summary "vendor_admin" (get_vendor_for_user "vendor_admin" none)
    [wPOrphan] [] [] wNow).getD wEmptySummary

/-- The computed summary of the V1-scoped vendor admin. -/
def wSummary4 : AdminSummary :=
  (get_admin_summary "vendor_admin" (some "V1") [wP1, wP2] [] [wOrder1, wOrder2] wNow).getD
    wEmptySummary

/-- The first surfaced recent order of `wSummary4`. -/
def wRecent1 : Order := wSummary4.recent_orders.headD wDummyOrder

/-- The vendor-filtered order list of V1. -/
def wVendList : List Order := list_all_orders_vendor "V1" [wP1, wP2] [wOrder1, wOrder2]

/-- Its first element. -/
def wVend1 : Order := wVendList.headD wDummyOrder

/-! ### Lemmas: dict semantics -/

theorem alistGet_alistSet_self {β : Type} (m : List (String × β)) (k : String) (v d : β) :
    alistGet (alistSet m k v) k d = v := by
  induction m with
  | nil => simp [alistGet, alistSet]
  | cons kv m ih =>
    cases hk : (kv.1 == k) with
    | true => simp [alistGet, alistSet, hk]
    | false => simp [alistGet, alistSet, hk, ih]

theorem alistGet_alistSet_ne {β : Type} (m : List (String × β)) (k k2 : String) (v d : β)
    (hne : k2 ≠ k) : alistGet (alistSet m k v) k2 d = alistGet m k2 d := by
  induction m with
  | nil => simp [alistGet, alistSet, Ne.symm hne]
  | cons kv m ih =>
    cases hk : (kv.1 == k) with
    | true =>
      have hk2 : (kv.1 == k2) = false := by
        simp only [beq_iff_eq] at hk
        rw [hk, beq_eq_false_iff_ne]
        exact Ne.symm hne
      simp [alistGet, alistSet, hk, hk2, Ne.symm hne]
    | false => simp [alistGet, alistSet, hk, ih]

theorem alistGet_alistUpd_self {β : Type} (m : List (String × β)) (k : String) (d : β)
    (f : β → β) : alistGet (alistUpd m k d f) k d = f (alistGet m k d) := by
  unfold alistUpd
  rw [alistGet_alistSet_self]

theorem alistGet_alistUpd_ne {β : Type} (m : List (String × β)) (k k2 : String) (d : β)
    (f : β → β) (hne : k2 ≠ k) : alistGet (alistUpd m k d f) k2 d = alistGet m k2 d := by
  unfold alistUpd
  rw [alistGet_alistSet_ne _ _ _ _ _ hne]

/-! ### Lemmas: the per-item step -/

theorem itemStep_spec (isSuper : Bool) (vendorId : Option String) (products : List Product)
    (dateStr : String) (inCur inPrev : Bool) (acc : ScanState × List OrderItem × Rat)
    (item : OrderItem) :
    (itemStep isSuper vendorId products dateStr inCur inPrev acc item).1.total_revenue =
      acc.1.total_revenue +
        (if itemQualifies isSuper vendorId products item then itemRev item else 0) ∧
    (itemStep isSuper vendorId products dateStr inCur inPrev acc item).2.1 =
      acc.2.1 ++ (if itemQualifies isSuper vendorId products item then [item] else []) ∧
    (itemStep isSuper vendorId products dateStr inCur inPrev acc item).2.2 =
      acc.2.2 + (if itemQualifies isSuper vendorId products item then itemRev item else 0) ∧
    (itemStep isSuper vendorId products dateStr inCur inPrev acc item).1.total_orders =
      acc.1.total_orders ∧
    (itemStep isSuper vendorId products dateStr inCur inPrev acc item).1.customers =
      acc.1.customers ∧
    (itemStep isSuper vendorId products dateStr inCur inPrev acc item).1.recentOrders =
      acc.1.recentOrders ∧
    (itemStep isSuper vendorId products dateStr inCur inPrev acc item).1.curOrders =
      acc.1.curOrders ∧
    (itemStep isSuper vendorId products dateStr inCur inPrev acc item).1.prevOrders =
      acc.1.prevOrders ∧
    (itemStep isSuper vendorId products dateStr inCur inPrev acc item).1.curCusts =
      acc.1.curCusts ∧
    (itemStep isSuper vendorId products dateStr inCur inPrev acc item).1.prevCusts =
      acc.1.prevCusts ∧
    (∀ k, (alistGet (itemStep isSuper vendorId products dateStr inCur inPrev acc item).1.dailyStats
        k ⟨0, 0⟩).orders = (alistGet acc.1.dailyStats k ⟨0, 0⟩).orders) ∧
    (itemStep isSuper vendorId products dateStr inCur inPrev acc item).1.curRev =
      acc.1.curRev +
        (if (itemQualifies isSuper vendorId products item && inCur) then itemRev item else 0) ∧
    (itemStep isSuper vendorId products dateStr inCur inPrev acc item).1.prevRev =
      acc.1.prevRev +
        (if (itemQualifies isSuper vendorId products item && (!inCur && inPrev))
          then itemRev item else 0) ∧
    (itemQualifies isSuper vendorId products item = false →
      (itemStep isSuper vendorId products dateStr inCur inPrev acc item).1.dailyStats =
        acc.1.dailyStats ∧
      (itemStep isSuper vendorId products dateStr inCur inPrev acc item).1.productStats =
        acc.1.productStats) := by
  obtain ⟨st, vitems, subtotal⟩ := acc
  cases hpid : item.product_id with
  | none => simp [itemStep, itemQualifies, resolvedVendor, hpid]
  | some pid =>
    cases hm : productMeta products pid with
    | none => simp [itemStep, itemQualifies, resolvedVendor, hpid, hm]
    | some meta =>
      cases hv : meta.vendor_id with
      | none => simp [itemStep, itemQualifies, resolvedVendor, hpid, hm, hv]
      | some v =>
        cases hemp : v.isEmpty with
        | true => simp [itemStep, itemQualifies, resolvedVendor, hpid, hm, hv, hemp]
        | false =>
          cases hscope : (isSuper || vendorId == some v) with
          | false =>
            simp [itemStep, itemQualifies, resolvedVendor, hpid, hm, hv, hemp, hscope]
          | true =>
            refine ⟨?_, ?_, ?_, ?_, ?_, ?_, ?_, ?_, ?_, ?_, ?_, ?_, ?_, ?_⟩ <;>
              first
              | (simp [itemStep, itemQualifies, resolvedVendor, hpid, hm, hv, hemp, hscope,
                  itemRev]
                 done)
              | (simp only [itemStep, hpid, hm, hv, hemp, hscope, if_false, Bool.false_eq_true]
                 intro k
                 by_cases hk : k = dateStr
                 · subst hk
                   simp [itemStep, hpid, hm, hv, hemp, hscope, alistGet_alistUpd_self]
                 · simp [itemStep, hpid, hm, hv, hemp, hscope,
                     alistGet_alistUpd_ne _ _ _ _ _ hk])
              | (cases inCur <;> cases inPrev <;>
                  simp [itemStep, itemQualifies, resolvedVendor, hpid, hm, hv, hemp, hscope,
                    itemRev])


/-! ### Lemmas: the items fold of one order -/

theorem itemsFold_spec (isSuper : Bool) (vendorId : Option String) (products : List Product)
    (dateStr : String) (inCur inPrev : Bool) (items : List OrderItem) :
    ∀ st vitems subtotal,
    (items.foldl (itemStep isSuper vendorId products dateStr inCur inPrev)
        (st, vitems, subtotal)).1.total_revenue =
      st.total_revenue + itemsRevenue (scopedItems isSuper vendorId products items) ∧
    (items.foldl (itemStep isSuper vendorId products dateStr inCur inPrev)
        (st, vitems, subtotal)).2.1 =
      vitems ++ scopedItems isSuper vendorId products items ∧
    (items.foldl (itemStep isSuper vendorId products dateStr inCur inPrev)
        (st, vitems, subtotal)).2.2 =
      subtotal + itemsRevenue (scopedItems isSuper vendorId products items) ∧
    (items.foldl (itemStep isSuper vendorId products dateStr inCur inPrev)
        (st, vitems, subtotal)).1.total_orders = st.total_orders ∧
    (items.foldl (itemStep isSuper vendorId products dateStr inCur inPrev)
        (st, vitems, subtotal)).1.customers = st.customers ∧
    (items.foldl (itemStep isSuper vendorId products dateStr inCur inPrev)
        (st, vitems, subtotal)).1.recentOrders = st.recentOrders ∧
    (items.foldl (itemStep isSuper vendorId products dateStr inCur inPrev)
        (st, vitems, subtotal)).1.curOrders = st.curOrders ∧
    (items.foldl (itemStep isSuper vendorId products dateStr inCur inPrev)
        (st, vitems, subtotal)).1.prevOrders = st.prevOrders ∧
    (items.foldl (itemStep isSuper vendorId products dateStr inCur inPrev)
        (st, vitems, subtotal)).1.curCusts = st.curCusts ∧
    (items.foldl (itemStep isSuper vendorId products dateStr inCur inPrev)
        (st, vitems, subtotal)).1.prevCusts = st.prevCusts ∧
    (∀ k, (alistGet (items.foldl (itemStep isSuper vendorId products dateStr inCur inPrev)
        (st, vitems, subtotal)).1.dailyStats k ⟨0, 0⟩).orders =
      (alistGet st.dailyStats k ⟨0, 0⟩).orders) ∧
    (items.foldl (itemStep isSuper vendorId products dateStr inCur inPrev)
        (st, vitems, subtotal)).1.curRev =
      st.curRev + (if inCur
        then itemsRevenue (scopedItems isSuper vendorId products items) else 0) ∧
    (items.foldl (itemStep isSuper vendorId products dateStr inCur inPrev)
        (st, vitems, subtotal)).1.prevRev =
      st.prevRev + (if (!inCur && inPrev)
        then itemsRevenue (scopedItems isSuper vendorId products items) else 0) ∧
    (scopedItems isSuper vendorId products items = [] →
      (items.foldl (itemStep isSuper vendorId products dateStr inCur inPrev)
        (st, vitems, subtotal)).1.dailyStats = st.dailyStats ∧
      (items.foldl (itemStep isSuper vendorId products dateStr inCur inPrev)
        (st, vitems, subtotal)).1.productStats = st.productStats) := by
  induction items with
  | nil =>
    intro st vitems subtotal
    simp [scopedItems, itemsRevenue]
  | cons it items ih =>
    intro st vitems subtotal
    obtain ⟨s1, s2, s3, s4, s5, s6, s7, s8, s9, s10, s11, s12, s13, s14⟩ :=
      itemStep_spec isSuper vendorId products dateStr inCur inPrev (st, vitems, subtotal) it
    obtain ⟨i1, i2, i3, i4, i5, i6, i7, i8, i9, i10, i11, i12, i13, i14⟩ :=
      ih (itemStep isSuper vendorId products dateStr inCur inPrev (st, vitems, subtotal) it).1
        (itemStep isSuper vendorId products dateStr inCur inPrev (st, vitems, subtotal) it).2.1
        (itemStep isSuper vendorId products dateStr inCur inPrev (st, vitems, subtotal) it).2.2
    rw [List.foldl_cons]
    by_cases hq : itemQualifies isSuper vendorId products it
    all_goals
      simp only [hq, if_true, if_false, Bool.true_and, Bool.false_and,
        Bool.false_eq_true, Bool.and_eq_true] at s1 s2 s3 s12 s13
    all_goals
      refine ⟨?_, ?_, ?_, ?_, ?_, ?_, ?_, ?_, ?_, ?_, ?_, ?_, ?_, ?_⟩
    -- qualifying head item
    · rw [i1, s1]
      simp [scopedItems, itemsRevenue, hq, add_assoc]
    · rw [i2, s2]
      simp [scopedItems, hq]
    · rw [i3, s3]
      simp [scopedItems, itemsRevenue, hq, add_assoc]
    · rw [i4, s4]
    · rw [i5, s5]
    · rw [i6, s6]
    · rw [i7, s7]
    · rw [i8, s8]
    · rw [i9, s9]
    · rw [i10, s10]
    · intro k
      rw [i11 k, s11 k]
    · rw [i12, s12]
      cases hc : inCur <;> simp [scopedItems, itemsRevenue, hq, add_assoc, hc]
    · rw [i13, s13]
      cases hc : inCur <;> cases hp : inPrev <;>
        simp [scopedItems, itemsRevenue, hq, add_assoc, hc, hp]
    · intro hsc
      rw [scopedItems, List.filter_cons] at hsc
      simp only [hq, if_true] at hsc
      cases hsc
    -- non-qualifying head item
    · rw [i1, s1]
      simp [scopedItems, itemsRevenue, hq]
    · rw [i2, s2]
      simp [scopedItems, hq]
    · rw [i3, s3]
      simp [scopedItems, itemsRevenue, hq]
    · rw [i4, s4]
    · rw [i5, s5]
    · rw [i6, s6]
    · rw [i7, s7]
    · rw [i8, s8]
    · rw [i9, s9]
    · rw [i10, s10]
    · intro k
      rw [i11 k, s11 k]
    · rw [i12, s12]
      simp [scopedItems, hq]
    · rw [i13, s13]
      simp [scopedItems, hq]
    · intro hsc
      rw [scopedItems, List.filter_cons] at hsc
      simp only [hq, if_false, Bool.false_eq_true] at hsc
      have hd := s14 (by simp [hq])
      obtain ⟨hd1, hd2⟩ := hd
      have hi := i14 (by rw [scopedItems] ; exact hsc)
      obtain ⟨hi1, hi2⟩ := hi
      exact ⟨by rw [hi1, hd1], by rw [hi2, hd2]⟩


/-! ### Lemmas: one order -/

theorem processOrder_spec (isSuper : Bool) (vendorId : Option String) (products : List Product)
    (cs ps : Int) (st : ScanState) (o : Order) (st2 : ScanState)
    (h : processOrder isSuper vendorId products cs ps st o = some st2) :
    st2.total_revenue = st.total_revenue + orderScopedRev isSuper vendorId products o ∧
    st2.total_orders = st.total_orders +
      (if orderQualifiesB isSuper vendorId products o then 1 else 0) ∧
    st2.customers = custAdd isSuper vendorId products st.customers o ∧
    (∀ k, (alistGet st2.dailyStats k ⟨0, 0⟩).orders =
      (alistGet st.dailyStats k ⟨0, 0⟩).orders +
        (if (orderQualifiesB isSuper vendorId products o && (orderDate o == k))
          then 1 else 0)) ∧
    (st2.recentOrders = st.recentOrders ∨
      (orderQualifiesB isSuper vendorId products o = true ∧
        st2.recentOrders = st.recentOrders ++ [redactOrder isSuper vendorId products o])) ∧
    (orderQualifiesB isSuper vendorId products o = false →
      st2.dailyStats = st.dailyStats ∧ st2.productStats = st.productStats ∧
      st2.recentOrders = st.recentOrders ∧ st2.curRev = st.curRev ∧
      st2.prevRev = st.prevRev ∧ st2.curOrders = st.curOrders ∧
      st2.prevOrders = st.prevOrders ∧ st2.curCusts = st.curCusts ∧
      st2.prevCusts = st.prevCusts) := by
  cases hts : o.created_at with
  | missing =>
    simp only [processOrder, hts, Option.some.injEq] at h
    subst h
    simp [orderScopedRev, orderQualifiesB, orderOkTs, custAdd, hts]
  | bad =>
    rw [processOrder, hts] at h
    cases h
  | ok ts ds =>
    have hq : orderQualifiesB isSuper vendorId products o =
        !(scopedItems isSuper vendorId products o.items).isEmpty := by
      simp [orderQualifiesB, orderOkTs, hts]
    have hR : orderScopedRev isSuper vendorId products o =
        itemsRevenue (scopedItems isSuper vendorId products o.items) := by
      simp [orderScopedRev, orderOkTs, hts]
    have hdate : orderDate o = ds := by simp [orderDate, hts]
    obtain ⟨f1, f2, f3, f4, f5, f6, f7, f8, f9, f10, f11, f12, f13, f14⟩ :=
      itemsFold_spec isSuper vendorId products ds (decide (ts ≥ cs)) (decide (ts ≥ ps))
        o.items st [] 0
    simp only [List.nil_append] at f2
    simp only [zero_add] at f3
    simp only [processOrder, hts] at h
    generalize hFr : (o.items.foldl (itemStep isSuper vendorId products ds
      (decide (ts ≥ cs)) (decide (ts ≥ ps))) (st, ([] : List OrderItem), (0 : Rat))) = Fr
      at h f1 f2 f3 f4 f5 f6 f7 f8 f9 f10 f11 f12 f13 f14
    obtain ⟨G, vit, sbt⟩ := Fr
    simp only at f1 f2 f3 f4 f5 f6 f7 f8 f9 f10 f11 f12 f13 f14 h
    subst f2
    by_cases hempty : (scopedItems isSuper vendorId products o.items).isEmpty
    · rw [if_pos hempty, Option.some.injEq] at h
      subst h
      have hsc : scopedItems isSuper vendorId products o.items = [] :=
        List.isEmpty_iff.mp hempty
      have hfin := f14 hsc
      rw [hq, hempty]
      simp only [Bool.not_true, Bool.false_and, Bool.false_eq_true, if_false]
      refine ⟨?_, ?_, ?_, ?_, ?_, ?_⟩
      · rw [f1, hR, hsc]
      · rw [f4]
        simp
      · rw [f5, custAdd, hq, hempty]
        simp
      · intro k
        rw [f11 k]
        simp
      · left
        exact f6
      · intro _
        refine ⟨hfin.1, hfin.2, f6, ?_, ?_, f7, f8, f9, f10⟩
        · rw [f12, hsc]
          simp [itemsRevenue]
        · rw [f13, hsc]
          simp [itemsRevenue]
    · rw [if_neg hempty, Option.some.injEq] at h
      subst h
      have hqt : orderQualifiesB isSuper vendorId products o = true := by
        rw [hq, Bool.not_eq_eq_eq_not, Bool.not_true]
        exact eq_false_of_ne_true hempty
      have hone : ∀ (m : List (String × DSt)) (k : String),
          (alistGet (alistUpd m ds ⟨0, 0⟩ (fun s => ⟨s.revenue, s.orders + 1⟩)) k
            ⟨0, 0⟩).orders = (alistGet m k ⟨0, 0⟩).orders + (if (ds == k) then 1 else 0) := by
        intro m k
        by_cases hk : k = ds
        · subst hk
          rw [alistGet_alistUpd_self]
          simp
        · rw [alistGet_alistUpd_ne _ _ _ _ _ hk]
          have hdk : (ds == k) = false := by
            rw [beq_eq_false_iff_ne]
            exact Ne.symm hk
          simp [hdk]
      refine ⟨?_, ?_, ?_, ?_, ?_, ?_⟩
      · cases hu : o.user_id with
        | none =>
          by_cases hlen : G.recentOrders.length < 5 <;> simp [hu, hlen, f1, hR]
        | some u =>
          by_cases hue : u.isEmpty <;> by_cases hlen : G.recentOrders.length < 5 <;>
            simp [hu, hue, hlen, f1, hR]
      · rw [hqt]
        cases hu : o.user_id with
        | none =>
          by_cases hlen : G.recentOrders.length < 5 <;> simp [hu, hlen, f4]
        | some u =>
          by_cases hue : u.isEmpty <;> by_cases hlen : G.recentOrders.length < 5 <;>
            simp [hu, hue, hlen, f4]
      · rw [custAdd, hqt]
        simp only [if_true]
        cases hu : o.user_id with
        | none =>
          by_cases hlen : G.recentOrders.length < 5 <;> simp [hu, hlen, f5]
        | some u =>
          by_cases hue : u.isEmpty <;> by_cases hlen : G.recentOrders.length < 5 <;>
            simp [hu, hue, hlen, f5]
      · intro k
        rw [hqt, hdate]
        simp only [Bool.true_and]
        cases hu : o.user_id with
        | none =>
          by_cases hlen : G.recentOrders.length < 5 <;> simp [hu, hlen, hone, f11 k]
        | some u =>
          by_cases hue : u.isEmpty <;> by_cases hlen : G.recentOrders.length < 5 <;>
            simp [hu, hue, hlen, hone, f11 k]
      · cases hu : o.user_id with
        | none =>
          by_cases hlen : st.recentOrders.length < 5
          · right
            exact ⟨hqt, by simp [hu, hlen, f6, redactOrder, f3, hts]⟩
          · left
            simp [hu, hlen, f6]
        | some u =>
          by_cases hue : u.isEmpty <;> by_cases hlen : st.recentOrders.length < 5
          · right
            exact ⟨hqt, by simp [hu, hue, hlen, f6, redactOrder, f3, hts]⟩
          · left
            simp [hu, hue, hlen, f6]
          · right
            exact ⟨hqt, by simp [hu, hue, hlen, f6, redactOrder, f3, hts]⟩
          · left
            simp [hu, hue, hlen, f6]
      · intro hqf
        rw [hqt] at hqf
        cases hqf


/-! ### Lemmas: the scan over all orders -/

theorem scan_spec (isSuper : Bool) (vendorId : Option String) (products : List Product)
    (cs ps : Int) (orders : List Order) :
    ∀ st st2,
    orders.foldlM (processOrder isSuper vendorId products cs ps) st = some st2 →
    st2.total_revenue = st.total_revenue +
      (orders.map (orderScopedRev isSuper vendorId products)).sum ∧
    st2.total_orders = st.total_orders +
      orders.countP (orderQualifiesB isSuper vendorId products) ∧
    st2.customers = orders.foldl (custAdd isSuper vendorId products) st.customers ∧
    (∀ k, (alistGet st2.dailyStats k ⟨0, 0⟩).orders =
      (alistGet st.dailyStats k ⟨0, 0⟩).orders +
        orders.countP (fun o => orderQualifiesB isSuper vendorId products o &&
          (orderDate o == k))) ∧
    (∀ o2 ∈ st2.recentOrders, o2 ∈ st.recentOrders ∨
      ∃ o ∈ orders, orderQualifiesB isSuper vendorId products o = true ∧
        o2 = redactOrder isSuper vendorId products o) ∧
    ((∀ o ∈ orders, orderQualifiesB isSuper vendorId products o = false) →
      st2.dailyStats = st.dailyStats ∧ st2.productStats = st.productStats ∧
      st2.recentOrders = st.recentOrders ∧ st2.curRev = st.curRev ∧
      st2.prevRev = st.prevRev ∧ st2.curOrders = st.curOrders ∧
      st2.prevOrders = st.prevOrders ∧ st2.curCusts = st.curCusts ∧
      st2.prevCusts = st.prevCusts) := by
  induction orders with
  | nil =>
    intro st st2 h
    simp only [List.foldlM_nil, Option.pure_def, Option.some.injEq] at h
    subst h
    simp
  | cons o os ih =>
    intro st st2 h
    rw [List.foldlM_cons] at h
    obtain ⟨st1, hst1, hrest⟩ := Option.bind_eq_some.mp h
    obtain ⟨p1, p2, p3, p4, p5, p6⟩ :=
      processOrder_spec isSuper vendorId products cs ps st o st1 hst1
    obtain ⟨i1, i2, i3, i4, i5, i6⟩ := ih st1 st2 hrest
    refine ⟨?_, ?_, ?_, ?_, ?_, ?_⟩
    · rw [i1, p1, List.map_cons, List.sum_cons, add_assoc]
    · rw [i2, p2, List.countP_cons]
      cases hq : orderQualifiesB isSuper vendorId products o <;> simp [hq] <;> omega
    · rw [List.foldl_cons, i3, p3]
    · intro k
      rw [i4 k, p4 k, List.countP_cons]
      cases hq : (orderQualifiesB isSuper vendorId products o && (orderDate o == k)) <;>
        simp [hq] <;> omega
    · intro o2 ho2
      rcases i5 o2 ho2 with hmem | ⟨o3, ho3, hq3, he3⟩
      · rcases p5 with hsame | ⟨hq, happ⟩
        · rw [hsame] at hmem
          left
          exact hmem
        · rw [happ] at hmem
          rcases List.mem_append.mp hmem with hmem2 | hmem2
          · left
            exact hmem2
          · right
            exact ⟨o, List.mem_cons_self o os, hq, List.mem_singleton.mp hmem2⟩
      · right
        exact ⟨o3, List.mem_cons_of_mem o ho3, hq3, he3⟩
    · intro hall
      have hqo : orderQualifiesB isSuper vendorId products o = false :=
        hall o (List.mem_cons_self o os)
      obtain ⟨q1, q2, q3, q4, q5, q6, q7, q8, q9⟩ := p6 hqo
      obtain ⟨r1, r2, r3, r4, r5, r6, r7, r8, r9⟩ :=
        i6 (fun o3 ho3 => hall o3 (List.mem_cons_of_mem o ho3))
      exact ⟨by rw [r1, q1], by rw [r2, q2], by rw [r3, q3], by rw [r4, q4],
        by rw [r5, q5], by rw [r6, q6], by rw [r7, q7], by rw [r8, q8], by rw [r9, q9]⟩


/-! ### Lemmas: endpoint inversion -/

theorem get_admin_summary_inv (role : String) (vendorId : Option String)
    (products : List Product) (vendors : List Vendor) (orders : List Order) (now : Int)
    (s : AdminSummary)
    (h : get_admin_summary role vendorId products vendors orders now = some s) :
    ∃ st pg,
      orders.foldlM (processOrder (role == "admin" || role == "super_admin") vendorId
        products (now - 30 * 24 * 60 * 60) (now - 60 * 24 * 60 * 60)) ScanState.init =
          some st ∧
      productsGrowth (role == "admin" || role == "super_admin") vendorId
        (now - 30 * 24 * 60 * 60) (now - 60 * 24 * 60 * 60) products = some pg ∧
      s = assembleSummary (role == "admin" || role == "super_admin") vendorId products
        vendors st pg := by
  simp only [get_admin_summary] at h
  split at h
  next hsc => cases h
  next st hsc =>
    split at h
    next hpg => cases h
    next pg hpg =>
      rw [Option.some.injEq] at h
      exact ⟨st, pg, hsc, hpg, h.symm⟩


/-! ### Lemmas: revenue sums -/

theorem sum_orderScopedRev_eq (isSuper : Bool) (vendorId : Option String)
    (products : List Product) (orders : List Order) :
    (orders.map (orderScopedRev isSuper vendorId products)).sum =
      ((orders.filter orderOkTs).map
        (fun o => itemsRevenue (scopedItems isSuper vendorId products o.items))).sum := by
  induction orders with
  | nil => rfl
  | cons o os ih =>
    cases hts : orderOkTs o <;>
      simp [List.filter_cons, hts, orderScopedRev, ih]

/-! ### The claims -/

/-- C7: `calc_pct(current, previous)` returns 100 when `previous = 0` and
`current > 0`, returns 0 when `previous = 0` and `current = 0`, and
otherwise returns `((current − previous) / previous) × 100`; in particular
`calc_pct 0 0 = 0`, `calc_pct 5 0 = 100` and `calc_pct 50 100 = -50`. -/
theorem C7_calc_pct_spec (cur prev : Rat) :
    (prev = 0 → 0 < cur → calc_pct cur prev = 100) ∧
    (prev = 0 → cur = 0 → calc_pct cur prev = 0) ∧
    (prev ≠ 0 → calc_pct cur prev = ((cur - prev) / prev) * 100) ∧
    calc_pct 0 0 = 0 ∧ calc_pct 5 0 = 100 ∧ calc_pct 50 100 = -50 := by
  refine ⟨?_, ?_, ?_, ?_, ?_, ?_⟩
  · intro h hc
    simp [calc_pct, h, hc]
  · intro h hc
    simp [calc_pct, h, hc]
  · intro h
    simp [calc_pct, h]
  · simp [calc_pct]
  · norm_num [calc_pct]
  · norm_num [calc_pct]

/-- C7 (witness): the three case clauses of `C7_calc_pct_spec`
instantiated at 5/0, 0/0 and 50/100. -/
theorem C7_calc_pct_spec_witness :
    calc_pct 5 0 = 100 ∧ calc_pct 0 0 = 0 ∧ calc_pct 50 100 = ((50 - 100) / 100) * 100 :=
  ⟨(C7_calc_pct_spec 5 0).1 rfl (by norm_num),
   (C7_calc_pct_spec 0 0).2.1 rfl rfl,
   (C7_calc_pct_spec 50 100).2.2.1 (by norm_num)⟩

/-- C2 (amended): an order whose `created_at` is absent/falsy is skipped
by the scan entirely, at whatever position of the snapshot it sits — the
summary is the one computed without that order, so the order is excluded
from the lifetime totals as well as from the windowed figures; an order
whose `created_at` is present but unparseable makes the whole request
raise instead of being skipped, again at any position. -/
theorem C2_missing_ts_dropped_bad_ts_raises (role : String) (vendorId : Option String)
    (products : List Product) (vendors : List Vendor) (pre post : List Order)
    (now : Int) (o : Order) :
    (o.created_at = TsField.missing →
      get_admin_summary role vendorId products vendors (pre ++ o :: post) now =
        get_admin_summary role vendorId products vendors (pre ++ post) now) ∧
    (o.created_at = TsField.bad →
      get_admin_summary role vendorId products vendors (pre ++ o :: post) now = none) := by
  constructor
  · intro hm
    have hstep : ∀ st : ScanState,
        processOrder (role == "admin" || role == "super_admin") vendorId products
          (now - 30 * 24 * 60 * 60) (now - 60 * 24 * 60 * 60) st o = some st := by
      intro st
      simp [processOrder, hm]
    have hscan : (pre ++ o :: post).foldlM
        (processOrder (role == "admin" || role == "super_admin") vendorId products
          (now - 30 * 24 * 60 * 60) (now - 60 * 24 * 60 * 60)) ScanState.init =
        (pre ++ post).foldlM
        (processOrder (role == "admin" || role == "super_admin") vendorId products
          (now - 30 * 24 * 60 * 60) (now - 60 * 24 * 60 * 60)) ScanState.init := by
      rw [List.foldlM_append, List.foldlM_append]
      cases hpre : pre.foldlM
          (processOrder (role == "admin" || role == "super_admin") vendorId products
            (now - 30 * 24 * 60 * 60) (now - 60 * 24 * 60 * 60)) ScanState.init with
      | none => rfl
      | some st =>
        simp only [Option.bind_eq_bind, Option.some_bind, List.foldlM_cons, hstep st]
    simp only [get_admin_summary]
    rw [hscan]
  · intro hb
    have hstep : ∀ st : ScanState,
        processOrder (role == "admin" || role == "super_admin") vendorId products
          (now - 30 * 24 * 60 * 60) (now - 60 * 24 * 60 * 60) st o = none := by
      intro st
      simp [processOrder, hb]
    have hscan : (pre ++ o :: post).foldlM
        (processOrder (role == "admin" || role == "super_admin") vendorId products
          (now - 30 * 24 * 60 * 60) (now - 60 * 24 * 60 * 60)) ScanState.init = none := by
      rw [List.foldlM_append]
      cases hpre : pre.foldlM
          (processOrder (role == "admin" || role == "super_admin") vendorId products
            (now - 30 * 24 * 60 * 60) (now - 60 * 24 * 60 * 60)) ScanState.init with
      | none => rfl
      | some st =>
        simp only [Option.bind_eq_bind, Option.some_bind, List.foldlM_cons, hstep st,
          Option.none_bind]
    simp only [get_admin_summary]
    rw [hscan]

/-- C1 (amended): for every scope and snapshot on which the request
succeeds, `total_revenue` is the sum of `quantity × price` over the
in-scope qualifying items (vendor resolved through the product snapshot,
null-vendor items excluded) of the orders with parseable timestamps, and
it is invariant under every rewrite of the orders' client-declared `total`
fields — it is never derived from them. -/
theorem C1_total_revenue_formula (role : String) (vendorId : Option String)
    (products : List Product) (vendors : List Vendor) (orders : List Order) (now : Int)
    (s : AdminSummary)
    (h : get_admin_summary role vendorId products vendors orders now = some s) :
    s.total_revenue = (orders.map (orderScopedRev
      (role == "admin" || role == "super_admin") vendorId products)).sum ∧
    s.total_revenue = ((orders.filter orderOkTs).map
      (fun o => itemsRevenue (scopedItems (role == "admin" || role == "super_admin")
        vendorId products o.items))).sum ∧
    (∀ t : Rat, s.total_revenue = ((orders.map (fun o => { o with total := t })).map
      (orderScopedRev (role == "admin" || role == "super_admin") vendorId products)).sum) := by
  obtain ⟨st, pg, hsc, hpg, hs⟩ :=
    get_admin_summary_inv role vendorId products vendors orders now s h
  obtain ⟨s1, s2, s3, s4, s5, s6⟩ :=
    scan_spec (role == "admin" || role == "super_admin") vendorId products
      (now - 30 * 24 * 60 * 60) (now - 60 * 24 * 60 * 60) orders ScanState.init st hsc
  have hrev : s.total_revenue = (orders.map (orderScopedRev
      (role == "admin" || role == "super_admin") vendorId products)).sum := by
    rw [hs]
    show st.total_revenue = _
    rw [s1]
    show ScanState.init.total_revenue + _ = _
    rw [ScanState.init]
    exact zero_add _
  refine ⟨hrev, ?_, ?_⟩
  · rw [hrev, sum_orderScopedRev_eq]
  · intro t
    rw [hrev, List.map_map]
    rfl


/-! ### Lemmas: customer-set growth bound -/

theorem setAdd_length_le (s : List String) (x : String) :
    (setAdd s x).length ≤ s.length + 1 := by
  unfold setAdd
  by_cases hc : x ∈ s <;> simp [hc]

theorem custAdd_length_le (isSuper : Bool) (vendorId : Option String)
    (products : List Product) (s : List String) (o : Order) :
    (custAdd isSuper vendorId products s o).length ≤
      s.length + (if orderQualifiesB isSuper vendorId products o then 1 else 0) := by
  unfold custAdd
  cases hq : orderQualifiesB isSuper vendorId products o
  · simp
  · simp only [if_true]
    cases hu : o.user_id with
    | none => simp
    | some u =>
      by_cases hue : u.isEmpty
      · simp [hue]
      · simp only [hue, Bool.false_eq_true, if_false]
        exact setAdd_length_le s u

theorem foldl_custAdd_length_le (isSuper : Bool) (vendorId : Option String)
    (products : List Product) (orders : List Order) :
    ∀ s : List String, (orders.foldl (custAdd isSuper vendorId products) s).length ≤
      s.length + orders.countP (orderQualifiesB isSuper vendorId products) := by
  induction orders with
  | nil => simp
  | cons o os ih =>
    intro s
    rw [List.foldl_cons, List.countP_cons]
    refine le_trans (ih (custAdd isSuper vendorId products s o)) ?_
    have hb := custAdd_length_le isSuper vendorId products s o
    omega

/-- C6 (amended): an order contributes to `total_orders` at most once —
the total is exactly the number of orders that both carry a parseable
timestamp and hold at least one qualifying in-scope item. In particular it
is exactly one per such order under the global scope, and zero for an
order with a missing timestamp however many qualifying items it holds.
Likewise each day's order count counts such orders once, and each order
grows the distinct-customer count by at most one. -/
theorem C6_order_counted_once (role : String) (vendorId : Option String)
    (products : List Product) (vendors : List Vendor) (orders : List Order) (now : Int)
    (s : AdminSummary)
    (h : get_admin_summary role vendorId products vendors orders now = some s) :
    s.total_orders = orders.countP (orderQualifiesB
      (role == "admin" || role == "super_admin") vendorId products) ∧
    s.total_customers ≤ orders.countP (orderQualifiesB
      (role == "admin" || role == "super_admin") vendorId products) ∧
    (∀ d ∈ s.daily_stats, d.orders = orders.countP (fun o =>
      orderQualifiesB (role == "admin" || role == "super_admin") vendorId products o &&
        (orderDate o == d.date))) := by
  obtain ⟨st, pg, hsc, hpg, hs⟩ :=
    get_admin_summary_inv role vendorId products vendors orders now s h
  obtain ⟨s1, s2, s3, s4, s5, s6⟩ :=
    scan_spec (role == "admin" || role == "super_admin") vendorId products
      (now - 30 * 24 * 60 * 60) (now - 60 * 24 * 60 * 60) orders ScanState.init st hsc
  refine ⟨?_, ?_, ?_⟩
  · rw [hs]
    show st.total_orders = _
    rw [s2]
    show ScanState.init.total_orders + _ = _
    rw [ScanState.init]
    exact Nat.zero_add _
  · rw [hs]
    show st.customers.length ≤ _
    rw [s3]
    have hb := foldl_custAdd_length_le (role == "admin" || role == "super_admin")
      vendorId products orders ScanState.init.customers
    simpa [ScanState.init] using hb
  · intro d hd
    rw [hs] at hd
    simp only [assembleSummary, List.mem_map] at hd
    obtain ⟨date, hdate, hdd⟩ := hd
    subst hdd
    simp only
    rw [s4 date]
    simp [ScanState.init, alistGet]



/-! ### Lemmas: the unassigned vendor admin scope -/

theorem itemQualifies_unassigned (products : List Product) (item : OrderItem) :
    itemQualifies false none products item = false := by
  unfold itemQualifies
  cases resolvedVendor products item with
  | none => rfl
  | some v => simp

theorem scopedItems_unassigned (products : List Product) (items : List OrderItem) :
    scopedItems false none products items = [] := by
  unfold scopedItems
  induction items with
  | nil => rfl
  | cons it items ih => simp [List.filter_cons, itemQualifies_unassigned, ih]

theorem orderQualifiesB_unassigned (products : List Product) (o : Order) :
    orderQualifiesB false none products o = false := by
  unfold orderQualifiesB
  rw [scopedItems_unassigned]
  simp

theorem orderScopedRev_unassigned (products : List Product) (o : Order) :
    orderScopedRev false none products o = 0 := by
  unfold orderScopedRev
  rw [scopedItems_unassigned]
  simp [itemsRevenue]

theorem foldl_custAdd_unassigned (products : List Product) (orders : List Order) :
    ∀ s : List String, orders.foldl (custAdd false none products) s = s := by
  induction orders with
  | nil => intro s; rfl
  | cons o os ih =>
    intro s
    rw [List.foldl_cons]
    have hc : custAdd false none products s o = s := by
      unfold custAdd
      rw [orderQualifiesB_unassigned]
      simp
    rw [hc, ih]

/-- C3 (amended): a `vendor_admin` with no vendor assignment resolves to
an absent vendor id, and the dashboard then yields zero/empty
order-derived statistics without erroring — but `total_products` counts
exactly the products whose vendor id is null (Python compares
`None == None` as true), and `products_change` is computed over those
null-vendor products' creation windows, so snapshots containing
null-vendor products do not yield zero there. -/
theorem C3_unassigned_vendor_admin (products : List Product) (vendors : List Vendor)
    (orders : List Order) (now : Int) (s : AdminSummary)
    (h : get_admin_summary "vendor_admin" (get_vendor_for_user "vendor_admin" none)
      products vendors orders now = some s) :
    get_vendor_for_user "vendor_admin" none = none ∧
    s.total_revenue = 0 ∧ s.total_orders = 0 ∧ s.total_customers = 0 ∧
    s.revenue_change = 0 ∧ s.orders_change = 0 ∧ s.customers_change = 0 ∧
    s.recent_orders = [] ∧ s.vendor_stats = [] ∧ s.top_products = [] ∧ s.daily_stats = [] ∧
    s.total_products = (products.filter (fun p => p.vendor_id == none)).length ∧
    (∀ c pr, productsGrowth false none (now - 30 * 24 * 60 * 60) (now - 60 * 24 * 60 * 60)
      products = some (c, pr) → s.products_change = calc_pct (c : Rat) (pr : Rat)) := by
  have hvid : get_vendor_for_user "vendor_admin" none = none := rfl
  rw [hvid] at h
  obtain ⟨st, pg, hsc, hpg, hs⟩ :=
    get_admin_summary_inv "vendor_admin" none products vendors orders now s h
  have hb : ("vendor_admin" == "admin" || "vendor_admin" == "super_admin") = false := rfl
  rw [hb] at hsc hpg hs
  obtain ⟨s1, s2, s3, s4, s5, s6⟩ :=
    scan_spec false none products
      (now - 30 * 24 * 60 * 60) (now - 60 * 24 * 60 * 60) orders ScanState.init st hsc
  have hall : ∀ o ∈ orders, orderQualifiesB false none products o = false :=
    fun o _ => orderQualifiesB_unassigned products o
  obtain ⟨q1, q2, q3, q4, q5, q6, q7, q8, q9⟩ := s6 hall
  have hzero : (orders.map (orderScopedRev false none products)).sum = 0 := by
    apply List.sum_eq_zero
    intro x hx
    obtain ⟨o, _, ho⟩ := List.mem_map.mp hx
    rw [← ho, orderScopedRev_unassigned]
  have hcount : orders.countP (orderQualifiesB false none products) = 0 := by
    rw [List.countP_eq_zero]
    intro o ho
    simp [orderQualifiesB_unassigned]
  refine ⟨hvid, ?_, ?_, ?_, ?_, ?_, ?_, ?_, ?_, ?_, ?_, ?_, ?_⟩
  · rw [hs]
    show st.total_revenue = 0
    rw [s1, hzero, ScanState.init]
    simp
  · rw [hs]
    show st.total_orders = 0
    rw [s2, hcount, ScanState.init]
  · rw [hs]
    show st.customers.length = 0
    rw [s3, foldl_custAdd_unassigned, ScanState.init]
    rfl
  · rw [hs]
    show calc_pct st.curRev st.prevRev = 0
    rw [q4, q5, ScanState.init]
    simp [calc_pct]
  · rw [hs]
    show calc_pct (st.curOrders : Rat) (st.prevOrders : Rat) = 0
    rw [q6, q7, ScanState.init]
    simp [calc_pct]
  · rw [hs]
    show calc_pct (st.curCusts.length : Rat) (st.prevCusts.length : Rat) = 0
    rw [q8, q9, ScanState.init]
    simp [calc_pct]
  · rw [hs]
    show st.recentOrders = []
    rw [q3, ScanState.init]
  · rw [hs]
    simp [assembleSummary]
  · rw [hs]
    simp [assembleSummary, q2, ScanState.init]
  · rw [hs]
    simp [assembleSummary, q1, ScanState.init]
  · rw [hs]
    simp [assembleSummary]
  · intro c pr hcp
    rw [hpg] at hcp
    rw [Option.some.injEq] at hcp
    rw [hs]
    show calc_pct (pg.1 : Rat) (pg.2 : Rat) = _
    rw [hcp]


theorem isEmpty_false_of_ne (v : String) (hv : v ≠ "") : v.isEmpty = false := by
  rw [← Bool.not_eq_true]
  intro he
  exact hv ((String.isEmpty_iff v).mp he)

/-- C4 (amended): under the global scope an item is in scope iff its
product id resolves to a product with a truthy (non-null, non-empty)
vendor id — so an item whose resolved product has a null vendor id is
skipped even globally; under a vendor scope `v` the item is in scope iff
its resolved vendor id is exactly `v`; and an item whose product id does
not resolve qualifies nowhere — its scan step returns the accumulator
unchanged, so it is counted in no statistic. -/
theorem C4_in_scope_characterization (products : List Product) (item : OrderItem) :
    (∀ vendorId, itemQualifies true vendorId products item = true ↔
      ∃ v, resolvedVendor products item = some v ∧ v ≠ "") ∧
    (∀ v : String, v ≠ "" → (itemQualifies false (some v) products item = true ↔
      resolvedVendor products item = some v)) ∧
    (resolvedVendor products item = none →
      (∀ isSuper vendorId, itemQualifies isSuper vendorId products item = false) ∧
      (∀ isSuper vendorId dateStr inCur inPrev acc,
        itemStep isSuper vendorId products dateStr inCur inPrev acc item = acc)) := by
  refine ⟨?_, ?_, ?_⟩
  · intro vendorId
    unfold itemQualifies
    cases hr : resolvedVendor products item with
    | none => simp
    | some v =>
      simp only [Bool.true_or, Bool.and_true, Bool.not_eq_true', Option.some.injEq]
      constructor
      · intro hemp
        refine ⟨v, rfl, ?_⟩
        intro he
        rw [he] at hemp
        exact absurd hemp (by decide)
      · rintro ⟨v2, rfl, hne⟩
        exact isEmpty_false_of_ne _ hne
  · intro v hv
    unfold itemQualifies
    cases hr : resolvedVendor products item with
    | none => simp
    | some v2 =>
      simp only [Bool.false_or, Bool.and_eq_true, Bool.not_eq_true', beq_iff_eq,
        Option.some.injEq]
      constructor
      · rintro ⟨_, hvv⟩
        exact hvv.symm
      · intro hvv
        subst hvv
        exact ⟨isEmpty_false_of_ne v2 hv, rfl⟩
  · intro hr
    constructor
    · intro isSuper vendorId
      unfold itemQualifies
      rw [hr]
    · intro isSuper vendorId dateStr inCur inPrev acc
      unfold resolvedVendor at hr
      cases hpid : item.product_id with
      | none => simp [itemStep, hpid]
      | some pid =>
        rw [hpid] at hr
        simp only at hr
        cases hm : productMeta products pid with
        | none => simp [itemStep, hpid, hm]
        | some meta =>
          rw [hm] at hr
          simp only at hr
          simp [itemStep, hpid, hm, hr]


/-- C9: in every returned summary, `vendor_stats` is non-increasing in
`total_revenue`, and `top_products` has at most 5 entries and is
non-increasing in `revenue`. -/
theorem C9_rankings_sorted (role : String) (vendorId : Option String)
    (products : List Product) (vendors : List Vendor) (orders : List Order) (now : Int)
    (s : AdminSummary)
    (h : get_admin_summary role vendorId products vendors orders now = some s) :
    List.Pairwise (fun a b : VendorStat => b.total_revenue ≤ a.total_revenue) s.vendor_stats ∧
    s.top_products.length ≤ 5 ∧
    List.Pairwise (fun a b : TopProduct => b.revenue ≤ a.revenue) s.top_products := by
  obtain ⟨st, pg, hsc, hpg, hs⟩ :=
    get_admin_summary_inv role vendorId products vendors orders now s h
  haveI : IsTotal VendorStat (fun a b => b.total_revenue ≤ a.total_revenue) :=
    ⟨fun a b => le_total _ _⟩
  haveI : IsTrans VendorStat (fun a b => b.total_revenue ≤ a.total_revenue) :=
    ⟨fun a b c hab hbc => le_trans hbc hab⟩
  haveI : IsTotal PSt (fun a b => b.revenue ≤ a.revenue) := ⟨fun a b => le_total _ _⟩
  haveI : IsTrans PSt (fun a b => b.revenue ≤ a.revenue) :=
    ⟨fun a b c hab hbc => le_trans hbc hab⟩
  subst hs
  refine ⟨?_, ?_, ?_⟩
  · simp only [assembleSummary]
    cases hb : (role == "admin" || role == "super_admin")
    · simp [hb]
    · simp only [hb, if_true]
      exact List.sorted_insertionSort _ _
  · simp only [assembleSummary, List.length_map]
    exact List.length_take_le 5 _
  · simp only [assembleSummary]
    have hsorted : List.Sorted (fun a b : PSt => b.revenue ≤ a.revenue)
        (List.insertionSort (fun a b : PSt => b.revenue ≤ a.revenue)
          (st.productStats.map (fun kv => kv.2))) :=
      List.sorted_insertionSort _ _
    have htake : List.Pairwise (fun a b : PSt => b.revenue ≤ a.revenue)
        ((List.insertionSort (fun a b : PSt => b.revenue ≤ a.revenue)
          (st.productStats.map (fun kv => kv.2))).take 5) :=
      List.Pairwise.sublist (List.take_sublist 5 _) hsorted
    exact List.pairwise_map.mpr htake


/-- C8 (amended): with exactly two in-scope products, one created 10 days
and one 40 days before now, under the global scope `products_change` is 0,
not 100 — the 40-day-old product falls inside the previous window
`[now-60d, now-30d)`, so the two windows hold one product each (1 vs 1)
and `calc_pct 1 1 = 0`. -/
theorem C8_products_change_scenario (now : Int) (n1 n2 d1 d2 : String) :
    (get_admin_summary "admin" none
      [⟨"p1", n1, some "V1", .ok (now - 10 * 86400) d1⟩,
       ⟨"p2", n2, some "V2", .ok (now - 40 * 86400) d2⟩] [] [] now).map
      (fun s => s.products_change) = some 0 := by
  have hc1 : now ≤ now - 864000 + 2592000 := by omega
  have hc2 : ¬(now ≤ now - 3456000 + 2592000) := by omega
  have hc3 : now ≤ now - 3456000 + 5184000 := by omega
  have hpg : productsGrowth true none (now - 30 * 24 * 60 * 60) (now - 60 * 24 * 60 * 60)
      [⟨"p1", n1, some "V1", .ok (now - 10 * 86400) d1⟩,
       ⟨"p2", n2, some "V2", .ok (now - 40 * 86400) d2⟩] = some (1, 1) := by
    unfold productsGrowth
    simp [hc1, hc2, hc3]
  simp only [get_admin_summary, List.foldlM_nil, Option.pure_def]
  have hb : (("admin" == "admin" || "admin" == "super_admin") : Bool) = true := rfl
  rw [hb, hpg]
  simp [assembleSummary]
  norm_num [calc_pct]


/-! ### Lemmas: the vendor order list -/

theorem list_all_orders_vendor_mem (v : String) (products : List Product)
    (orders : List Order) :
    ∀ o2 ∈ list_all_orders_vendor v products orders,
      ∃ o ∈ orders,
        o.items.filter (vendorItemKeep v products) ≠ [] ∧
        o2 = { o with
          items := o.items.filter (vendorItemKeep v products),
          total := itemsSubtotal (o.items.filter (vendorItemKeep v products)) } := by
  have haux : ∀ (os : List Order) (acc : List Order) (o2 : Order),
      o2 ∈ os.foldl (fun acc o =>
        if (o.items.filter (vendorItemKeep v products)).isEmpty then acc
        else acc ++ [{ o with
          items := o.items.filter (vendorItemKeep v products),
          total := itemsSubtotal (o.items.filter (vendorItemKeep v products)) }]) acc →
      o2 ∈ acc ∨ ∃ o ∈ os,
        o.items.filter (vendorItemKeep v products) ≠ [] ∧
        o2 = { o with
          items := o.items.filter (vendorItemKeep v products),
          total := itemsSubtotal (o.items.filter (vendorItemKeep v products)) } := by
    intro os
    induction os with
    | nil =>
      intro acc o2 h
      exact Or.inl h
    | cons o os ih =>
      intro acc o2 h
      rw [List.foldl_cons] at h
      rcases ih _ o2 h with hacc | ⟨o3, ho3, hne, he⟩
      · by_cases hemp : (o.items.filter (vendorItemKeep v products)).isEmpty
        · rw [if_pos hemp] at hacc
          exact Or.inl hacc
        · rw [if_neg hemp] at hacc
          rcases List.mem_append.mp hacc with hacc2 | hacc2
          · exact Or.inl hacc2
          · refine Or.inr ⟨o, List.mem_cons_self o os, ?_, List.mem_singleton.mp hacc2⟩
            intro hnil
            rw [hnil] at hemp
            exact hemp rfl
      · exact Or.inr ⟨o3, List.mem_cons_of_mem o ho3, hne, he⟩
  intro o2 h2
  have hconv : list_all_orders_vendor v products orders = orders.foldl (fun acc o =>
      if (o.items.filter (vendorItemKeep v products)).isEmpty then acc
      else acc ++ [{ o with
        items := o.items.filter (vendorItemKeep v products),
        total := itemsSubtotal (o.items.filter (vendorItemKeep v products)) }]) [] := rfl
  rw [hconv] at h2
  rcases haux orders [] o2 h2 with habs | hgood
  · cases habs
  · exact hgood

theorem productMeta_of_nodup (products : List Product)
    (hnd : (products.map (fun p => p.id)).Nodup) (p : Product) (hp : p ∈ products) :
    productMeta products p.id = some p := by
  unfold productMeta
  cases hf : products.reverse.find? (fun q => q.id == p.id) with
  | none =>
    exfalso
    have : ∃ x ∈ products.reverse, (fun q : Product => q.id == p.id) x = true :=
      ⟨p, List.mem_reverse.mpr hp, by simp⟩
    rw [← List.find?_isSome] at this
    rw [hf] at this
    cases this
  | some q =>
    have hqp : (q.id == p.id) = true := List.find?_some (p := fun r : Product => r.id == p.id) hf
    have hqm : q ∈ products := List.mem_reverse.mp (List.mem_of_find?_eq_some hf)
    simp only [beq_iff_eq] at hqp
    have := List.inj_on_of_nodup_map hnd hqm hp hqp
    rw [this]

theorem vendorItemKeep_resolved (v : String) (products : List Product)
    (hnd : (products.map (fun p => p.id)).Nodup) (item : OrderItem)
    (hk : vendorItemKeep v products item = true) :
    resolvedVendor products item = some v := by
  unfold vendorItemKeep at hk
  cases hpid : item.product_id with
  | none =>
    rw [hpid] at hk
    cases hk
  | some pid =>
    rw [hpid] at hk
    simp only at hk
    obtain ⟨pid2, hpid2, hbeq⟩ := List.contains_iff_exists_mem_beq.mp hk
    simp only [beq_iff_eq] at hbeq
    obtain ⟨p, hpf, hpid3⟩ := List.mem_map.mp hpid2
    have hpm := List.mem_filter.mp hpf
    have hpv : p.vendor_id = some v := by
      have h2 := hpm.2
      simpa using h2
    have hpidp : p.id = pid := by rw [hpid3, ← hbeq]
    have hmeta : productMeta products pid = some p := by
      rw [← hpidp]
      exact productMeta_of_nodup products hnd p hpm.1
    simp [resolvedVendor, hpid, hmeta, hpv]

theorem itemQualifies_vendor_resolved (v : String) (products : List Product)
    (item : OrderItem) (hq : itemQualifies false (some v) products item = true) :
    resolvedVendor products item = some v := by
  unfold itemQualifies at hq
  cases hr : resolvedVendor products item with
  | none =>
    rw [hr] at hq
    cases hq
  | some v2 =>
    rw [hr] at hq
    simp only [Bool.false_or, Bool.and_eq_true, beq_iff_eq] at hq
    rw [hq.2]

/-- C5: every order surfaced in a vendor-scoped view — `recent_orders` of
the dashboard summary and the vendor-admin order list — is a copy of a
source order whose `items` are replaced by the in-scope subset and whose
`total` is recomputed as the sum of `quantity × price` over the surviving
items; no surviving item resolves to a different vendor (for the order
list endpoint, assuming the snapshot's product ids are unique, as they are
under the store's primary key); the source order value itself is never
changed (the embedding is pure and the surfaced order is a new value). -/
theorem C5_vendor_view_redaction (v : String) (products : List Product) :
    (∀ vendors orders now s,
      get_admin_summary "vendor_admin" (some v) products vendors orders now = some s →
      ∀ o2 ∈ s.recent_orders,
        (∃ o ∈ orders, o2 = redactOrder false (some v) products o) ∧
        (∀ it ∈ o2.items, resolvedVendor products it = some v) ∧
        o2.total = itemsRevenue o2.items) ∧
    ((products.map (fun p => p.id)).Nodup →
      ∀ orders, ∀ o2 ∈ list_all_orders_vendor v products orders,
        (∃ o ∈ orders, o2 = { o with
          items := o.items.filter (vendorItemKeep v products),
          total := itemsSubtotal (o.items.filter (vendorItemKeep v products)) }) ∧
        (∀ it ∈ o2.items, resolvedVendor products it = some v) ∧
        o2.total = itemsSubtotal o2.items) := by
  constructor
  · intro vendors orders now s h o2 ho2
    obtain ⟨st, pg, hsc, hpg, hs⟩ :=
      get_admin_summary_inv "vendor_admin" (some v) products vendors orders now s h
    have hb : ("vendor_admin" == "admin" || "vendor_admin" == "super_admin") = false := rfl
    rw [hb] at hsc hs
    obtain ⟨s1, s2, s3, s4, s5, s6⟩ :=
      scan_spec false (some v) products
        (now - 30 * 24 * 60 * 60) (now - 60 * 24 * 60 * 60) orders ScanState.init st hsc
    rw [hs] at ho2
    have ho2r : o2 ∈ st.recentOrders := ho2
    rcases s5 o2 ho2r with habs | ⟨o, ho, hq, he⟩
    · rw [ScanState.init] at habs
      cases habs
    · have hitems : o2.items = scopedItems false (some v) products o.items := by
        rw [he]
        rfl
      have htotal : o2.total =
          itemsRevenue (scopedItems false (some v) products o.items) := by
        rw [he]
        rfl
      refine ⟨⟨o, ho, he⟩, ?_, ?_⟩
      · intro it hit
        rw [hitems] at hit
        have hqi := List.of_mem_filter hit
        exact itemQualifies_vendor_resolved v products it hqi
      · rw [htotal, hitems]
  · intro hnd orders o2 ho2
    obtain ⟨o, ho, hne, he⟩ := list_all_orders_vendor_mem v products orders o2 ho2
    have hitems : o2.items = o.items.filter (vendorItemKeep v products) := by
      rw [he]
    have htotal : o2.total = itemsSubtotal (o.items.filter (vendorItemKeep v products)) := by
      rw [he]
    refine ⟨⟨o, ho, he⟩, ?_, ?_⟩
    · intro it hit
      rw [hitems] at hit
      have hki := List.of_mem_filter hit
      exact vendorItemKeep_resolved v products hnd it hki
    · rw [htotal, hitems]


/-! ### Lemmas: order status never feeds aggregation -/

theorem itemStep_recent_set (isSuper : Bool) (vendorId : Option String)
    (products : List Product) (dateStr : String) (inCur inPrev : Bool)
    (st : ScanState) (r : List Order) (vi : List OrderItem) (sb : Rat) (item : OrderItem) :
    itemStep isSuper vendorId products dateStr inCur inPrev
        ({ st with recentOrders := r }, vi, sb) item =
      ({ (itemStep isSuper vendorId products dateStr inCur inPrev (st, vi, sb) item).1
          with recentOrders := r },
       (itemStep isSuper vendorId products dateStr inCur inPrev (st, vi, sb) item).2.1,
       (itemStep isSuper vendorId products dateStr inCur inPrev (st, vi, sb) item).2.2) := by
  cases hpid : item.product_id with
  | none => simp [itemStep, hpid]
  | some pid =>
    cases hm : productMeta products pid with
    | none => simp [itemStep, hpid, hm]
    | some meta =>
      cases hv : meta.vendor_id with
      | none => simp [itemStep, hpid, hm, hv]
      | some v =>
        cases hemp : v.isEmpty with
        | true => simp [itemStep, hpid, hm, hv, hemp]
        | false =>
          cases hscope : (isSuper || vendorId == some v) with
          | true => simp [itemStep, hpid, hm, hv, hemp, hscope]
          | false => simp [itemStep, hpid, hm, hv, hemp, hscope]

theorem itemsFold_recent_set (isSuper : Bool) (vendorId : Option String)
    (products : List Product) (dateStr : String) (inCur inPrev : Bool)
    (items : List OrderItem) :
    ∀ (st : ScanState) (r : List Order) (vi : List OrderItem) (sb : Rat),
    items.foldl (itemStep isSuper vendorId products dateStr inCur inPrev)
        ({ st with recentOrders := r }, vi, sb) =
      ({ (items.foldl (itemStep isSuper vendorId products dateStr inCur inPrev)
          (st, vi, sb)).1 with recentOrders := r },
       (items.foldl (itemStep isSuper vendorId products dateStr inCur inPrev)
          (st, vi, sb)).2.1,
       (items.foldl (itemStep isSuper vendorId products dateStr inCur inPrev)
          (st, vi, sb)).2.2) := by
  induction items with
  | nil =>
    intro st r vi sb
    simp
  | cons it items ih =>
    intro st r vi sb
    rw [List.foldl_cons, List.foldl_cons, itemStep_recent_set]
    rw [ih]


theorem processOrder_scrub (isSuper : Bool) (vendorId : Option String)
    (products : List Product) (cs ps : Int) (st2 : ScanState) (r1 : List Order)
    (o1 : Order) (s : String)
    (hrec : r1.map scrubOrder = st2.recentOrders.map scrubOrder) :
    (processOrder isSuper vendorId products cs ps { st2 with recentOrders := r1 } o1 = none ∧
     processOrder isSuper vendorId products cs ps st2 { o1 with status := s } = none) ∨
    (∃ stF rF,
      processOrder isSuper vendorId products cs ps { st2 with recentOrders := r1 } o1 =
        some { stF with recentOrders := rF } ∧
      processOrder isSuper vendorId products cs ps st2 { o1 with status := s } = some stF ∧
      rF.map scrubOrder = stF.recentOrders.map scrubOrder) := by
  have hlen12 : r1.length = st2.recentOrders.length := by
    have hl := congrArg List.length hrec
    simpa using hl
  obtain ⟨oid, ouid, ostat, otot, oitems, ocr⟩ := o1
  cases ocr with
  | missing =>
    right
    refine ⟨st2, r1, ?_, ?_, hrec⟩
    · simp [processOrder]
    · simp [processOrder]
  | bad =>
    left
    exact ⟨by simp [processOrder], by simp [processOrder]⟩
  | ok ts ds =>
    obtain ⟨f1, f2, f3, f4, f5, f6, f7, f8, f9, f10, f11, f12, f13, f14⟩ :=
      itemsFold_spec isSuper vendorId products ds (decide (ts ≥ cs)) (decide (ts ≥ ps))
        oitems st2 [] 0
    simp only [processOrder]
    rw [itemsFold_recent_set]
    generalize hFr : (oitems.foldl (itemStep isSuper vendorId products ds
      (decide (ts ≥ cs)) (decide (ts ≥ ps))) (st2, ([] : List OrderItem), (0 : Rat))) = Fr
      at f1 f2 f3 f4 f5 f6 f7 f8 f9 f10 f11 f12 f13 f14 ⊢
    obtain ⟨G, vit, sbt⟩ := Fr
    simp only at f1 f2 f3 f4 f5 f6 f7 f8 f9 f10 f11 f12 f13 f14 ⊢
    by_cases hempty : vit.isEmpty
    · rw [if_pos hempty, if_pos hempty]
      right
      refine ⟨G, r1, rfl, rfl, ?_⟩
      rw [f6]
      exact hrec
    · rw [if_neg hempty, if_neg hempty]
      right
      cases ouid with
      | none =>
        simp only
        by_cases hlen : r1.length < 5
        · have hlen2 : st2.recentOrders.length < 5 := by omega
          rw [if_pos hlen, f6, if_pos hlen2]
          exact ⟨_, _, rfl, rfl, by
            simp only [List.map_append, List.map_cons, List.map_nil, hrec]
            cases isSuper <;> rfl⟩
        · have hlen2 : ¬ st2.recentOrders.length < 5 := by omega
          rw [if_neg hlen, f6, if_neg hlen2]
          exact ⟨_, _, rfl, rfl, hrec⟩
      | some u =>
        simp only
        by_cases hue : u.isEmpty
        · rw [if_pos hue, if_pos hue]
          by_cases hlen : r1.length < 5
          · have hlen2 : st2.recentOrders.length < 5 := by omega
            rw [if_pos hlen, f6, if_pos hlen2]
            exact ⟨_, _, rfl, rfl, by
              simp only [List.map_append, List.map_cons, List.map_nil, hrec]
              cases isSuper <;> rfl⟩
          · have hlen2 : ¬ st2.recentOrders.length < 5 := by omega
            rw [if_neg hlen, f6, if_neg hlen2]
            exact ⟨_, _, rfl, rfl, hrec⟩
        · rw [if_neg hue, if_neg hue]
          by_cases hlen : r1.length < 5
          · have hlen2 : st2.recentOrders.length < 5 := by omega
            rw [if_pos hlen, f6, if_pos hlen2]
            exact ⟨_, _, rfl, rfl, by
              simp only [List.map_append, List.map_cons, List.map_nil, hrec]
              cases isSuper <;> rfl⟩
          · have hlen2 : ¬ st2.recentOrders.length < 5 := by omega
            rw [if_neg hlen, f6, if_neg hlen2]
            exact ⟨_, _, rfl, rfl, hrec⟩


theorem scan_scrub (isSuper : Bool) (vendorId : Option String) (products : List Product)
    (cs ps : Int) (orders1 : List Order) :
    ∀ (orders2 : List Order), orders1.map scrubOrder = orders2.map scrubOrder →
    ∀ (st2 : ScanState) (r1 : List Order),
      r1.map scrubOrder = st2.recentOrders.map scrubOrder →
      (orders1.foldlM (processOrder isSuper vendorId products cs ps)
          { st2 with recentOrders := r1 } = none ∧
       orders2.foldlM (processOrder isSuper vendorId products cs ps) st2 = none) ∨
      (∃ stF rF,
        orders1.foldlM (processOrder isSuper vendorId products cs ps)
          { st2 with recentOrders := r1 } = some { stF with recentOrders := rF } ∧
        orders2.foldlM (processOrder isSuper vendorId products cs ps) st2 = some stF ∧
        rF.map scrubOrder = stF.recentOrders.map scrubOrder) := by
  induction orders1 with
  | nil =>
    intro orders2 ho st2 r1 hrec
    cases orders2 with
    | nil =>
      right
      exact ⟨st2, r1, by simp, by simp, hrec⟩
    | cons o2 os2 => simp at ho
  | cons o1 os1 ih =>
    intro orders2 ho st2 r1 hrec
    cases orders2 with
    | nil => simp at ho
    | cons o2 os2 =>
      simp only [List.map_cons, List.cons.injEq] at ho
      obtain ⟨ho1, hos⟩ := ho
      have ho2 : o2 = { o1 with status := o2.status } := by
        obtain ⟨a, b, c, d, e, f⟩ := o1
        obtain ⟨a2, b2, c2, d2, e2, f2⟩ := o2
        simp only [scrubOrder, Order.mk.injEq, and_true, true_and] at ho1
        simp only [Order.mk.injEq, and_true, true_and]
        obtain ⟨h1, h2, h3, h4, h5⟩ := ho1
        exact ⟨h1.symm, h2.symm, h3.symm, h4.symm, h5.symm⟩
      rw [List.foldlM_cons, List.foldlM_cons]
      rcases processOrder_scrub isSuper vendorId products cs ps st2 r1 o1 o2.status hrec with
        ⟨hn1, hn2⟩ | ⟨stM, rM, h1, h2, hrecM⟩
      · rw [hn1]
        rw [← ho2] at hn2
        rw [hn2]
        exact Or.inl ⟨rfl, rfl⟩
      · rw [h1]
        rw [← ho2] at h2
        rw [h2]
        simp only [Option.bind_eq_bind, Option.some_bind]
        exact ih os2 hos stM rM hrecM

/-- C10 (amended): two order snapshots that agree except possibly on the
orders' `status` fields yield summaries that agree on every aggregate —
revenue, counts, growth figures, vendor, product and daily stats — and on
which orders surface in `recent_orders`; the surfaced orders, however,
carry their own `status` verbatim, so the full responses agree exactly
after erasing the statuses of `recent_orders`. Order status never feeds
any aggregation, but it is not erased from the surfaced rows. -/
theorem C10_status_scrub_invariance (role : String) (vendorId : Option String)
    (products : List Product) (vendors : List Vendor) (now : Int)
    (orders1 orders2 : List Order)
    (ho : orders1.map scrubOrder = orders2.map scrubOrder) :
    Option.map scrubSummary
        (get_admin_summary role vendorId products vendors orders1 now) =
      Option.map scrubSummary
        (get_admin_summary role vendorId products vendors orders2 now) := by
  have hinit : ({ ScanState.init with recentOrders := [] } : ScanState) = ScanState.init := rfl
  rcases scan_scrub (role == "admin" || role == "super_admin") vendorId products
      (now - 30 * 24 * 60 * 60) (now - 60 * 24 * 60 * 60) orders1 orders2 ho
      ScanState.init [] rfl with
    ⟨hn1, hn2⟩ | ⟨stF, rF, h1, h2, hrecF⟩
  · rw [hinit] at hn1
    simp only [get_admin_summary]
    rw [hn1, hn2]
  · rw [hinit] at h1
    simp only [get_admin_summary]
    rw [h1, h2]
    cases hpg : productsGrowth (role == "admin" || role == "super_admin") vendorId
        (now - 30 * 24 * 60 * 60) (now - 60 * 24 * 60 * 60) products with
    | none => rfl
    | some pg =>
      simp only [Option.map_some']
      rw [Option.some.injEq]
      simp [assembleSummary, scrubSummary, AdminSummary.mk.injEq, hrecF]


/-! ### Witnesses and counterexamples on concrete snapshots -/

section
set_option allowUnsafeReducibility true
attribute [local semireducible] Rat.add Rat.mul Rat.sub Rat.div Rat.inv

/-- C1 (witness): the revenue formula instantiated on the one-order global
snapshot: 2 × 10 over the single parseable order. -/
theorem C1_total_revenue_formula_witness :
    wSummary1.total_revenue = (([wOrder1].filter orderOkTs).map
      (fun o => itemsRevenue (scopedItems ("admin" == "admin" || "admin" == "super_admin")
        none [wP1] o.items))).sum :=
  (C1_total_revenue_formula "admin" none [wP1] [] [wOrder1] wNow wSummary1 (by decide)).2.1

/-- C1 (counterexample): at a snapshot whose only order has a qualifying
item but a missing timestamp, the engine's `total_revenue` is 0 while the
spec's sum over qualifying items is 10 — the claimed equality fails. -/
theorem C1_cex :
    (get_admin_summary "admin" none [wP1] [] [wOrderMissingTs] wNow).map
        (fun s => s.total_revenue) = some 0 ∧
    specTotalRevenue true none [wP1] [wOrderMissingTs] = 10 ∧
    (get_admin_summary "admin" none [wP1] [] [wOrderMissingTs] wNow).map
        (fun s => s.total_revenue) ≠
      some (specTotalRevenue true none [wP1] [wOrderMissingTs]) :=
  ⟨by decide, by decide, by decide⟩

/-- C2 (witness): a missing-timestamp order sitting between two normal
orders leaves the summary unchanged, and an unparseable-timestamp order in
the same middle position fails the whole request. -/
theorem C2_missing_ts_dropped_bad_ts_raises_witness :
    get_admin_summary "admin" none [wP1, wP2] [] [wOrder1, wOrderMissingTs, wOrder2] wNow =
      get_admin_summary "admin" none [wP1, wP2] [] [wOrder1, wOrder2] wNow ∧
    get_admin_summary "admin" none [wP1, wP2] [] [wOrder1, wOrderBadTs, wOrder2] wNow = none :=
  ⟨(C2_missing_ts_dropped_bad_ts_raises "admin" none [wP1, wP2] [] [wOrder1] [wOrder2]
      wNow wOrderMissingTs).1 rfl,
   (C2_missing_ts_dropped_bad_ts_raises "admin" none [wP1, wP2] [] [wOrder1] [wOrder2]
      wNow wOrderBadTs).2 rfl⟩

/-- C2 (counterexample): the missing-timestamp order with a qualifying
item is counted in no lifetime total (all zero, where the claim requires
it counted), and the unparseable-timestamp order errors the request where
the claim says it must not. -/
theorem C2_cex :
    (get_admin_summary "admin" none [wP1] [] [wOrderMissingTs] wNow).map
      (fun s => (s.total_revenue, s.total_orders, s.total_customers)) = some (0, 0, 0) ∧
    get_admin_summary "admin" none [wP1] [] [wOrderBadTs] wNow = none :=
  ⟨by decide, by decide⟩

/-- C3 (witness): the amended statement instantiated on the orphan-product
snapshot: order statistics are zero, but `total_products` counts the
null-vendor product. -/
theorem C3_unassigned_vendor_admin_witness :
    wSummary3.total_revenue = 0 ∧ wSummary3.total_orders = 0 ∧
    wSummary3.total_products = ([wPOrphan].filter (fun p => p.vendor_id == none)).length := by
  have h := C3_unassigned_vendor_admin [wPOrphan] [] [] wNow wSummary3 (by decide)
  exact ⟨h.2.1, h.2.2.1, h.2.2.2.2.2.2.2.2.2.2.2.1⟩

/-- C3 (counterexample): an unassigned vendor admin over a snapshot with a
single null-vendor product created a day ago sees `total_products = 1` and
`products_change = 100`, not the zero results the claim demands. -/
theorem C3_cex :
    (get_admin_summary "vendor_admin" (get_vendor_for_user "vendor_admin" none)
        [wPOrphan] [] [] wNow).map (fun s => (s.total_products, s.products_change)) =
      some (1, 100) ∧
    (get_admin_summary "vendor_admin" (get_vendor_for_user "vendor_admin" none)
        [wPOrphan] [] [] wNow).map (fun s => s.total_products) ≠ some 0 :=
  ⟨by decide, by decide⟩

/-- C4 (witness): the characterization applied to a vendor-scoped
qualifying item and to an unresolvable item's no-op scan step. -/
theorem C4_in_scope_characterization_witness :
    itemQualifies false (some "V1") [wP1] ⟨some "A", 2, 10⟩ = true ∧
    itemStep true none [wP1] "2001-09-08" true true (ScanState.init, [], 0) ⟨some "Z", 1, 5⟩ =
      (ScanState.init, [], 0) := by
  constructor
  · exact ((C4_in_scope_characterization [wP1] ⟨some "A", 2, 10⟩).2.1 "V1"
      (by decide)).mpr (by decide)
  · exact ((C4_in_scope_characterization [wP1] ⟨some "Z", 1, 5⟩).2.2 (by decide)).2
      true none "2001-09-08" true true (ScanState.init, [], 0)

/-- C4 (counterexample): a line item whose product id resolves to a
product with a null vendor id is skipped even under the global scope — it
fails the scan's guard and contributes nothing, where the claim says every
resolving item is in scope. -/
theorem C4_cex :
    productMeta [wPOrphan] "N" = some wPOrphan ∧ wPOrphan.vendor_id = none ∧
    itemQualifies true none [wPOrphan] ⟨some "N", 1, 10⟩ = false ∧
    (get_admin_summary "admin" none [wPOrphan] [] [wOrderOrphan] wNow).map
      (fun s => (s.total_revenue, s.total_orders)) = some (0, 0) :=
  ⟨by decide, by decide, by decide, by decide⟩

/-- C5 (witness): on the two-vendor snapshot under the V1 scope, the
surfaced recent order and the vendor order-list entry hold only items
resolving to V1 and carry recomputed totals. -/
theorem C5_vendor_view_redaction_witness :
    (∀ it ∈ wRecent1.items, resolvedVendor [wP1, wP2] it = some "V1") ∧
    wRecent1.total = itemsRevenue wRecent1.items ∧
    (∀ it ∈ wVend1.items, resolvedVendor [wP1, wP2] it = some "V1") ∧
    wVend1.total = itemsSubtotal wVend1.items := by
  have hA := (C5_vendor_view_redaction "V1" [wP1, wP2]).1 [] [wOrder1, wOrder2] wNow
    wSummary4 (by decide) wRecent1 (by decide)
  have hB := (C5_vendor_view_redaction "V1" [wP1, wP2]).2 (by decide) [wOrder1, wOrder2]
    wVend1 (by decide)
  exact ⟨hA.2.1, hA.2.2, hB.2.1, hB.2.2⟩

/-- C6 (witness): on the two-order global snapshot, `total_orders` equals
the count of qualifying orders and the customer count is bounded by it. -/
theorem C6_order_counted_once_witness :
    wSummary2.total_orders = [wOrder1, wOrder2].countP
      (orderQualifiesB ("admin" == "admin" || "admin" == "super_admin") none [wP1, wP2]) ∧
    wSummary2.total_customers ≤ [wOrder1, wOrder2].countP
      (orderQualifiesB ("admin" == "admin" || "admin" == "super_admin") none [wP1, wP2]) := by
  have h := C6_order_counted_once "admin" none [wP1, wP2] [] [wOrder1, wOrder2] wNow
    wSummary2 (by decide)
  exact ⟨h.1, h.2.1⟩

/-- C6 (counterexample): an order with a qualifying item but a missing
timestamp contributes zero to the global `total_orders`, not the exactly
once the claim states. -/
theorem C6_cex :
    itemQualifies true none [wP1] ⟨some "A", 1, 10⟩ = true ∧
    (get_admin_summary "admin" none [wP1] [] [wOrderMissingTs] wNow).map
      (fun s => s.total_orders) = some 0 ∧
    (get_admin_summary "admin" none [wP1] [] [wOrderMissingTs] wNow).map
      (fun s => s.total_orders) ≠ some 1 :=
  ⟨by decide, by decide, by decide⟩

/-- C8 (counterexample): the exact scenario of the claim — products
created 10 and 40 days before now, global scope — yields a
`products_change` different from the claimed 100. -/
theorem C8_cex :
    (get_admin_summary "admin" none
      [⟨"p1", "Prod 1", some "V1", .ok (wNow - 10 * 86400) "d1"⟩,
       ⟨"p2", "Prod 2", some "V2", .ok (wNow - 40 * 86400) "d2"⟩] [] [] wNow).map
      (fun s => s.products_change) ≠ some 100 := by decide

/-- C9 (witness): the ranking properties instantiated on the two-vendor
snapshot. -/
theorem C9_rankings_sorted_witness :
    List.Pairwise (fun a b : VendorStat => b.total_revenue ≤ a.total_revenue)
      wSummary2.vendor_stats ∧
    wSummary2.top_products.length ≤ 5 ∧
    List.Pairwise (fun a b : TopProduct => b.revenue ≤ a.revenue) wSummary2.top_products :=
  C9_rankings_sorted "admin" none [wP1, wP2] [] [wOrder1, wOrder2] wNow wSummary2 (by decide)

/-- C10 (witness): flipping one order's status leaves the summary
unchanged after erasing the surfaced statuses. -/
theorem C10_status_scrub_invariance_witness :
    Option.map scrubSummary (get_admin_summary "admin" none [wP1] []
        [{ wOrder1 with status := "completed" }] wNow) =
      Option.map scrubSummary (get_admin_summary "admin" none [wP1] [] [wOrder1] wNow) :=
  C10_status_scrub_invariance "admin" none [wP1] [] wNow
    [{ wOrder1 with status := "completed" }] [wOrder1] (by decide)

/-- C10 (counterexample): two snapshots identical except for one order's
status produce different `AdminSummary` values — the order reaches
`recent_orders`, which carries its status verbatim. -/
theorem C10_cex :
    List.map scrubOrder [{ wOrder1 with status := "completed" }] =
      List.map scrubOrder [wOrder1] ∧
    get_admin_summary "admin" none [wP1] [] [{ wOrder1 with status := "completed" }] wNow ≠
      get_admin_summary "admin" none [wP1] [] [wOrder1] wNow :=
  ⟨by decide, by decide⟩

end

end Kiosks

